import Mathlib

/-!
Shallow embedding of the schedula dispatcher graph model
(src/schedula/__init__.py and src/schedula/utils/dsp.py).

Node ids are Python strings plus the reserved tokens START, SINK, SELF and
PLOT (schedula.utils.cst tokens compare by identity; they are modelled as
separate constructors).  Auto-generated ids of the printed form "guess<n>"
(docstring of Dispatcher.add_data) are kept as a separate constructor
`NId.sfx guess n` so that freshness is expressible structurally.
-/

inductive NId where
  | str (s : String)
  | sfx (base : String) (n : Nat)
  | START
  | SINK
  | SELF
  | PLOT
deriving DecidableEq, Repr

/-- The underlying Python string of an id (tokens subclass str in
schedula.utils.cst: START is the string "start", and so on). -/
def NId.key : NId → String
  | .str s => s
  | .sfx b n => b ++ "<" ++ toString n ++ ">"
  | .START => "start"
  | .SINK => "sink"
  | .SELF => "self"
  | .PLOT => "plot"

/-- Python truthiness of an id used as a string: only the empty string is
falsy. -/
def NId.py_truthy : NId → Bool
  | .str s => s ≠ ""
  | _ => true

/-- Values stored as data-node defaults: ordinary user values, the NONE
token (the default of the START node) and the enclosing dispatcher itself
(the default of the SELF node, kept as an opaque marker). -/
inductive Val where
  | int (n : Int)
  | str (s : String)
  | noneTok
  | dspSelf
deriving DecidableEq, Repr

inductive NType where
  | data
  | function
  | dispatcher
deriving DecidableEq, Repr

/-- The `inputs`/`outputs` node attribute: an ordered id list for plain
function nodes, an id-to-ids mapping for sub-dispatcher nodes (the mapping
values are normalised to lists, cf. `stlp` in src/schedula/utils/dsp.py). -/
inductive NIO where
  | lst (l : List NId)
  | iomap (m : List (NId × List NId))
deriving DecidableEq, Repr

/-- The iterable of ids of an `inputs`/`outputs` attribute, as Python
iteration yields it (`set(n)` over a list gives its elements, over a dict
its keys). -/
def NIO.ids : NIO → List NId
  | .lst l => l
  | .iomap m => m.map Prod.fst

/-- Node attribute dictionary.  Attributes never read by the modelled
operations or the claims (callback, filters, description, remote_links)
are omitted. -/
structure NAttr where
  ntype : NType
  wait_inputs : Bool
  index : Nat
  inputs : Option NIO := none
  outputs : Option NIO := none
  function : Option String := none
  wildcard : Option Bool := none
  weight : Option Int := none
deriving DecidableEq, Repr

/-- A default-value record, `{'value': ..., 'initial_dist': ...}`. -/
structure Dfl where
  value : Val
  initial_dist : Int
deriving DecidableEq, Repr

/-- Python dict insert/update on an association list: an existing key
keeps its position and gets the new value, a new key is appended. -/
def listUpd {α β : Type} [DecidableEq α] (l : List (α × β)) (k : α) (v : β) :
    List (α × β) :=
  if (l.find? (fun p => p.1 = k)).isSome then
    l.map (fun p => if p.1 = k then (k, v) else p)
  else
    l ++ [(k, v)]

/-- The directed graph `dmap`: node dictionary (insertion ordered) and
edge dictionary keyed by the (source, destination) pair, carrying the
optional edge weight. -/
structure Dmap where
  nodes : List (NId × NAttr)
  edges : List ((NId × NId) × Option Int)
deriving DecidableEq, Repr

def Dmap.empty : Dmap := ⟨[], []⟩

def Dmap.node? (g : Dmap) (k : NId) : Option NAttr :=
  (g.nodes.find? (fun p => p.1 = k)).map Prod.snd

def Dmap.has_node (g : Dmap) (k : NId) : Bool :=
  (g.node? k).isSome

/-- networkx add_node: an existing node keeps its position and gets the
merged attributes, a new node is appended. -/
def Dmap.setNode (g : Dmap) (k : NId) (a : NAttr) : Dmap :=
  { g with nodes := listUpd g.nodes k a }

def Dmap.edge? (g : Dmap) (u v : NId) : Option (Option Int) :=
  (g.edges.find? (fun e => e.1 = (u, v))).map Prod.snd

/-- networkx add_edge: a repeated edge has its attributes updated. -/
def Dmap.addEdge (g : Dmap) (u v : NId) (w : Option Int) : Dmap :=
  { g with edges := listUpd g.edges (u, v) w }

def Dmap.removeNode (g : Dmap) (k : NId) : Dmap :=
  { nodes := g.nodes.filter (fun p => ¬ p.1 = k),
    edges := g.edges.filter (fun e => ¬ e.1.1 = k ∧ ¬ e.1.2 = k) }

def Dmap.removeEdge (g : Dmap) (u v : NId) : Dmap :=
  { g with edges := g.edges.filter (fun e => ¬ e.1 = (u, v)) }

def Dmap.outDegree (g : Dmap) (k : NId) : Nat :=
  (g.edges.filter (fun e => e.1.1 = k)).length

def Dmap.inDegree (g : Dmap) (k : NId) : Nat :=
  (g.edges.filter (fun e => e.1.2 = k)).length

/-- networkx degree (a self loop counts twice). -/
def Dmap.degree (g : Dmap) (k : NId) : Nat :=
  g.inDegree k + g.outDegree k

/-- The shared class-level `threading.Event` (`Dispatcher.stopper`,
src/schedula/__init__.py line 152).  Event objects are modelled by
reference ids (Nat); this constant is the reference of the unique
class-attribute event. -/
def classStopper : Nat := 0

/-- The Dispatcher state: graph, defaults, name, `raises`, the stopper
reference and the node-index counter. -/
structure Dsp where
  dmap : Dmap := Dmap.empty
  name : String := ""
  default_values : List (NId × Dfl) := []
  raises : Bool := false
  stopper : Nat := classStopper
  counterV : Nat := 0
deriving DecidableEq, Repr

def Dsp.node? (dsp : Dsp) (k : NId) : Option NAttr := dsp.dmap.node? k

def Dsp.nodeType (dsp : Dsp) (k : NId) : Option NType :=
  (dsp.node? k).map NAttr.ntype

/-- `Dispatcher.__init__` (src/schedula/__init__.py lines 154..217):
`self.stopper = stopper or self.__class__.stopper`; a `threading.Event`
is always truthy, `None` is falsy. -/
def mkDispatcher (name : String := "") (raises : Bool := false)
    (dmap : Option Dmap := none) (default_values : List (NId × Dfl) := [])
    (stopper : Option Nat := none) : Dsp :=
  { dmap := dmap.getD Dmap.empty,
    name := name,
    default_values := default_values,
    raises := raises,
    stopper := stopper.getD classStopper,
    counterV := 0 }

/-- `Dispatcher.copy_structure` (src/schedula/__init__.py lines 219..227):
constructs a dispatcher of the same class handing over description, name,
stopper and raises; kwargs (here only the optional dmap, as used by
get_sub_dsp) are merged over that base and win on clashes.  Default values
are not handed over. -/
def Dsp.copy_structure (dsp : Dsp) (dmap : Option Dmap := none) : Dsp :=
  mkDispatcher dsp.name dsp.raises dmap [] (some dsp.stopper)

namespace PyAssoc

/-- Python dict update on an association list. -/
def upd {α β : Type} [DecidableEq α] (d : List (α × β)) (k : α) (v : β) :
    List (α × β) :=
  listUpd d k v

def get? [DecidableEq α] (d : List (α × β)) (k : α) : Option β :=
  (d.find? (fun p => p.1 = k)).map Prod.snd

def hasKey [DecidableEq α] (d : List (α × β)) (k : α) : Bool :=
  (get? d k).isSome

/-- Python dict.pop(k, None): removes the key if present. -/
def pop [DecidableEq α] (d : List (α × β)) (k : α) : List (α × β) :=
  d.filter (fun p => ¬ p.1 = k)

end PyAssoc

/-- `Dispatcher.set_default_value` (src/schedula/__init__.py lines
815..870).  `value = none` models the EMPTY sentinel: the previous default
is removed.  On an id that is not a data node a ValueError is raised
(state unchanged, since the raise is the only effect on that path). -/
def set_default_value (dsp : Dsp) (data_id : NId) (value : Option Val := none)
    (initial_dist : Int := 0) : Except String Dsp :=
  match dsp.node? data_id with
  | some a =>
    if a.ntype = NType.data then
      match value with
      | none =>
        Except.ok { dsp with default_values := PyAssoc.pop dsp.default_values data_id }
      | some v =>
        Except.ok { dsp with
          default_values := PyAssoc.upd dsp.default_values data_id ⟨v, initial_dist⟩ }
    else
      Except.error "Input error: not a data node"
  | none => Except.error "Input error: not a data node"

/-- Modelled from the spec: `get_unused_node_id` (schedula.utils.alg, absent
from src/).  The add_data docstring says an automatic id is assigned of the
printed form "unknown<n>", "not in dmap"; add_function uses the same helper
with the function name as initial guess.  The guess itself is used when
unused; otherwise a numbered id strictly above every bound number for that
guess, hence unused. -/
def get_unused_node_id (g : Dmap) (guess : String := "unknown") : NId :=
  if g.has_node (NId.str guess) then
    NId.sfx guess (g.nodes.foldl
      (fun acc p =>
        match p.1 with
        | NId.sfx b n => if b = guess then max acc (n + 1) else acc
        | _ => acc) 0)
  else
    NId.str guess

/-- The node write of add_data once the id is resolved and admissible:
attribute-dictionary merge (networkx add_node) and default-value update. -/
def add_data_attr (dsp : Dsp) (k : NId) (wait_inputs : Bool)
    (wildcard : Option Bool) (function : Option String) : NAttr :=
  let old := dsp.node? k
  { ntype := NType.data,
    wait_inputs := wait_inputs,
    index := dsp.counterV,
    inputs := old.bind NAttr.inputs,
    outputs := old.bind NAttr.outputs,
    function := function <|> old.bind NAttr.function,
    wildcard := wildcard <|> old.bind NAttr.wildcard,
    weight := old.bind NAttr.weight }

def add_data_core (dsp : Dsp) (k : NId) (default_value : Option Val)
    (initial_dist : Int) (wait_inputs : Bool) (wildcard : Option Bool)
    (function : Option String) : Dsp × Except String NId :=
  let dsp1 : Dsp :=
    { dsp with
      dmap := dsp.dmap.setNode k (add_data_attr dsp k wait_inputs wildcard function),
      counterV := dsp.counterV + 1 }
  match set_default_value dsp1 k default_value initial_dist with
  | Except.ok d => (d, Except.ok k)
  | Except.error e => (dsp1, Except.error e)

/-- `Dispatcher.add_data` (src/schedula/__init__.py lines 229..402).
`default_value = none` models the EMPTY sentinel (no default).  Reserved
ids get their special attributes; an id bound to a non-data node raises
ValueError before any mutation; an existing data node has its attribute
dictionary updated in place (networkx add_node merges `attr_dict`). -/
def add_data (dsp : Dsp) (data_id : Option NId := none)
    (default_value : Option Val := none) (initial_dist : Int := 0)
    (wait_inputs : Bool := false) (wildcard : Option Bool := none)
    (function : Option String := none) (callback : Option String := none) :
    Dsp × Except String NId :=
  -- Set special data nodes.
  let default_value :=
    if data_id = some NId.START then some Val.noneTok
    else if data_id = some NId.SELF then some Val.dspSelf
    else default_value
  let wait_inputs := if data_id = some NId.SINK then true else wait_inputs
  let function :=
    if data_id = some NId.SINK then some "bypass"
    else if data_id = some NId.PLOT then function <|> some "autoplot_function"
    else function
  let _callback :=
    if data_id = some NId.PLOT then callback <|> some "autoplot_callback"
    else callback
  match data_id with
  | none =>
    add_data_core dsp (get_unused_node_id dsp.dmap) default_value initial_dist
      wait_inputs wildcard function
  | some k =>
    match dsp.nodeType k with
    | some t =>
      if t = NType.data then
        add_data_core dsp k default_value initial_dist wait_inputs wildcard function
      else (dsp, Except.error "Invalid data id: override function")
    | none =>
      add_data_core dsp k default_value initial_dist wait_inputs wildcard function

/-- add_function, dummy input resolution (src/schedula/__init__.py lines
504..508): omitted inputs become the single START node, created if
absent. -/
def resolve_inputs (dsp : Dsp) (inputs : Option (List NId)) : Dsp × List NId :=
  match inputs with
  | some l => (dsp, l)
  | none =>
    if dsp.dmap.has_node NId.START then (dsp, [NId.START])
    else ((add_data dsp (some NId.START)).1, [NId.START])

/-- add_function, dummy output resolution (src/schedula/__init__.py lines
510..514): omitted outputs become the single SINK node, created if
absent. -/
def resolve_outputs (dsp : Dsp) (outputs : Option (List NId)) : Dsp × List NId :=
  match outputs with
  | some l => (dsp, l)
  | none =>
    if dsp.dmap.has_node NId.SINK then (dsp, [NId.SINK])
    else ((add_data dsp (some NId.SINK)).1, [NId.SINK])

/-- Whether some listed id is bound to a non-data node (the fail-fast
condition of the edge helper below). -/
def kindClash (dsp : Dsp) (ids : List NId) : Bool :=
  ids.any (fun u =>
    match dsp.nodeType u with
    | some t => ¬ t = NType.data
    | none => false)

/-- Modelled from the spec: `add_func_edges` (schedula.utils.alg, absent
from src/).  Spec §4.G: "edges are added with the supplied per-edge
weights"; §3: function inputs and outputs are data ids, and a missing one
is created as a plain data node (cf. the add_data call of the real helper);
§7: a listed id bound to a node of a different kind is a construction
error that fails fast at build time (checked by `kindClash` before any
mutation by the caller). -/
def add_func_edges (dsp : Dsp) (fun_id : NId) (bunch : List NId)
    (weights : List (NId × Int)) (input : Bool) : Dsp :=
  bunch.foldl
    (fun s u =>
      let s :=
        if s.dmap.has_node u then s
        else (add_data s (some u)).1
      let w := (PyAssoc.get? weights u).map id
      if input then { s with dmap := s.dmap.addEdge u fun_id w }
      else { s with dmap := s.dmap.addEdge fun_id u w })
    dsp

/-- kwargs of add_function as used inside the repository: add_dispatcher
passes `type='dispatcher', wait_inputs=False`, which `attr_dict.update`
applies last. -/
structure AddFnKw where
  typeOv : Option NType := none
  waitOv : Option Bool := none
deriving DecidableEq, Repr

/-- The function-node attribute dictionary built by add_function (with the
kwargs overrides applied last by `attr_dict.update`). -/
def add_function_attr (dsp : Dsp) (inl outl : List NId) (function : Option String)
    (weight : Option Int) (kw : AddFnKw) : NAttr :=
  { ntype := kw.typeOv.getD NType.function,
    wait_inputs := kw.waitOv.getD true,
    index := dsp.counterV,
    inputs := some ( NIO.lst inl),
    outputs := some ( NIO.lst outl),
    function := function,
    weight := weight }

/-- add_function after dummy-node resolution and function naming. -/
def add_function_core (dsp : Dsp) (function_name : String) (function : Option String)
    (inl outl : List NId) (weight : Option Int)
    (inp_weight out_weight : List (NId × Int)) (kw : AddFnKw) :
    Dsp × Except String NId :=
  let fun_id := get_unused_node_id dsp.dmap function_name
  if kindClash dsp inl ∨ kindClash dsp outl then
    (dsp, Except.error "Invalid input id: not a data node")
  else
    let attr := add_function_attr dsp inl outl function weight kw
    let dsp1 : Dsp :=
      { dsp with
        dmap := dsp.dmap.setNode fun_id attr,
        counterV := dsp.counterV + 1 }
    let dsp2 := add_func_edges dsp1 fun_id inl inp_weight true
    let dsp3 := add_func_edges dsp2 fun_id outl out_weight false
    (dsp3, Except.ok fun_id)

/-- `Dispatcher.add_function` (src/schedula/__init__.py lines 404..565).
The function argument is modelled by its resolved `parent_func` name.
Errors (no usable function id; an input or output id bound to a non-data
node, see `add_func_edges`) are returned beside the state reached so far,
mirroring Python exception semantics where earlier mutations persist. -/
def add_function (dsp : Dsp) (function_id : Option String := none)
    (function : Option String := none) (inputs : Option (List NId) := none)
    (outputs : Option (List NId) := none) (weight : Option Int := none)
    (inp_weight : List (NId × Int) := []) (out_weight : List (NId × Int) := [])
    (kw : AddFnKw := {}) : Dsp × Except String NId :=
  let ri := resolve_inputs dsp inputs
  let ro := resolve_outputs ri.1 outputs
  match function_id <|> function with
  | none => (ro.1, Except.error "Invalid function id")
  | some function_name =>
    add_function_core ro.1 function_name function ri.2 ro.2 weight
      inp_weight out_weight kw

/-- Stable insertion of an id into a key-sorted list (Python `sorted` over
ids, which are strings). -/
def insertSorted (x : NId) : List NId → List NId
  | [] => [x]
  | y :: ys => if decide (x.key ≤ y.key) then x :: y :: ys else y :: insertSorted x ys

def sortIds (l : List NId) : List NId := l.foldr insertSorted []

/-- The child dispatcher of add_dispatcher, reduced to what determines the
parent-side effect: its name, its node kinds and its default values. -/
structure ChildInfo where
  cname : String
  cnodes : List (NId × NType)
  cdefaults : List (NId × Dfl) := []
deriving DecidableEq, Repr

/-- Attribute rewrite installing the raw I/O maps on a sub-dispatcher
node. -/
def io_upd (inputs outputs : List (NId × List NId)) (a : NAttr) : NAttr :=
  { a with
    inputs := some ( NIO.iomap inputs),
    outputs := some ( NIO.iomap outputs) }

/-- `self.nodes[dsp_id]['inputs'] = inputs; self.nodes[dsp_id]['outputs'] =
outputs` of add_dispatcher: the sub-dispatcher node gets the raw I/O
maps. -/
def set_dsp_io (dsp : Dsp) (fid : NId) (inputs outputs : List (NId × List NId)) : Dsp :=
  { dsp with
    dmap :=
    { dsp.dmap with
      nodes := dsp.dmap.nodes.map (fun p =>
        if p.1 = fid then (p.1, io_upd inputs outputs p.2) else p) } }

/-- One step of the include_defaults import loop of add_dispatcher. -/
def import_default_step (child : ChildInfo) (s : Dsp) (p : NId × List NId) : Dsp :=
  match p.2.head? with
  | some c =>
    (match PyAssoc.get? child.cdefaults c with
     | some dfl =>
       (match set_default_value s p.1 (some dfl.value) dfl.initial_dist with
        | Except.ok s2 => s2
        | Except.error _ => s)
     | none => s)
  | none => s

/-- add_dispatcher after its internal add_function call: install the I/O
maps, set the child-side remote links (which fail fast on a child id that
is not a data node), optionally import child defaults. -/
def add_dispatcher_tail (child : ChildInfo)
    (inputs outputs : List (NId × List NId)) (include_defaults : Bool)
    (afr : Dsp × Except String NId) : Dsp × Except String NId :=
  match afr.2 with
  | Except.error e => (afr.1, Except.error e)
  | Except.ok fid =>
    let children := ((inputs.map Prod.snd).flatten).dedup
    -- Set proper inputs / outputs on the sub-dispatcher node.
    let dsp2 := set_dsp_io afr.1 fid inputs outputs
    -- Child-side remote links (raise when a referenced child id is not a
    -- data node; SINK is auto-added).
    let badLink := (children ++ outputs.map Prod.fst).find? (fun k =>
      match PyAssoc.get? child.cnodes k with
      | some NType.data => false
      | some _ => true
      | none => ¬ k = NId.SINK)
    match badLink with
    | some _ => (dsp2, Except.error "Input error: not a data node")
    | none =>
      if include_defaults then
        (inputs.foldl (import_default_step child) dsp2, Except.ok fid)
      else (dsp2, Except.ok fid)

/-- `Dispatcher.add_dispatcher` (src/schedula/__init__.py lines 567..727),
parent-side effect.  The child ids referenced by the I/O maps must be data
nodes of the child (set_data_remote_link raises otherwise; SINK is created
on demand); mutations of the child itself are outside the modelled state.
`_children` (schedula.utils.alg, absent from src/) is modelled from the
spec: the set of ids on the far side of a set-valued I/O map. -/
def add_dispatcher (dsp : Dsp) (child : ChildInfo)
    (inputs : List (NId × List NId)) (outputs : List (NId × List NId))
    (dsp_id : Option String := none) (weight : Option Int := none)
    (inp_weight : List (NId × Int) := []) (include_defaults : Bool := false) :
    Dsp × Except String NId :=
  let did :=
    match dsp_id with
    | some s =>
      if s = "" then (if child.cname = "" then "unknown" else child.cname) else s
    | none => if child.cname = "" then "unknown" else child.cname
  let wfrom := inputs.map (fun p => (p.1, (0 : Int)))
  let wfrom := inp_weight.foldl (fun d p => PyAssoc.upd d p.1 p.2) wfrom
  let _children_ids := ((inputs.map Prod.snd).flatten).dedup
  let parents := ((outputs.map Prod.snd).flatten).dedup
  add_dispatcher_tail child inputs outputs include_defaults
    (add_function dsp (some did) (some child.cname)
      (some (sortIds (inputs.map Prod.fst))) (some (sortIds parents)) weight
      wfrom [] { typeOv := some NType.dispatcher, waitOv := some false })

/-- One construction call, as quantified over by the lifecycle claims. -/
inductive BuildOp where
  | data (data_id : Option NId) (default_value : Option Val) (initial_dist : Int)
      (wait_inputs : Bool) (wildcard : Option Bool) (function : Option String)
      (callback : Option String)
  | func (function_id : Option String) (function : Option String)
      (inputs : Option (List NId)) (outputs : Option (List NId))
      (weight : Option Int) (inp_weight : List (NId × Int))
      (out_weight : List (NId × Int)) (kw : AddFnKw)
  | dspAdd (child : ChildInfo) (inputs : List (NId × List NId))
      (outputs : List (NId × List NId)) (dsp_id : Option String)
      (weight : Option Int) (inp_weight : List (NId × Int))
      (include_defaults : Bool)
deriving DecidableEq, Repr

/-- State after one construction call; a raised construction error leaves
the mutations made up to the raise in place, as in Python. -/
def applyOp (s : Dsp) : BuildOp → Dsp
  | BuildOp.data a b c d e f g => (add_data s a b c d e f g).1
  | BuildOp.func a b c d e f g h => (add_function s a b c d e f g h).1
  | BuildOp.dspAdd a b c d e f g => (add_dispatcher s a b c d e f g).1

def applyOps (s : Dsp) (ops : List BuildOp) : Dsp := ops.foldl applyOp s



/-- The step function of the numbered-id scan. -/
def sfxStep (guess : String) (acc : Nat) (p : NId × NAttr) : Nat :=
  match p.1 with
  | NId.sfx b m => if b = guess then max acc (m + 1) else acc
  | _ => acc

/-- The id actually written by add_data. -/
def add_data_rid (s : Dsp) (did : Option NId) : NId :=
  match did with
  | some k => k
  | none => get_unused_node_id s.dmap "unknown"

def exDspA : Dsp := (add_data (mkDispatcher) (some (NId.str "a"))).1

def exDspF : Dsp :=
  (add_function (mkDispatcher) (some "f") none
    (some [NId.str "u"]) (some [NId.str "v"])).1

/-- Repeated copy_structure applications (child graphs derived from a
root, each hand-over possibly installing a new dmap). -/
def copyChain (dsp : Dsp) (chain : List (Option Dmap)) : Dsp :=
  chain.foldl (fun s dm => s.copy_structure dm) dsp

/-- networkx subgraph: the sub-graph induced by a node bunch (nodes in
bunch order, edges with both endpoints in the bunch, attributes shared
with the original). -/
def subgraphD (g : Dmap) (bunch : List NId) : Dmap :=
  { nodes := bunch.filterMap (fun k => (g.node? k).map (fun a => (k, a))),
    edges := g.edges.filter (fun e =>
      decide (e.1.1 ∈ bunch) && decide (e.1.2 ∈ bunch)) }

/-- networkx isolates: nodes of degree zero. -/
def Dmap.isolatesL (g : Dmap) : List NId :=
  (g.nodes.filter (fun p => g.degree p.1 = 0)).map Prod.fst

/-- Simultaneous removal of a set of nodes (with their incident edges). -/
def removeManyD (g : Dmap) (S : List NId) : Dmap :=
  { nodes := g.nodes.filter (fun p => decide (¬ p.1 ∈ S)),
    edges := g.edges.filter (fun e =>
      decide (¬ e.1.1 ∈ S) && decide (¬ e.1.2 ∈ S)) }

/-- The drop test of get_sub_dsp's first pass: the node has an `inputs`
attribute and not all of its input ids are in the node bunch. -/
def pass1Drop (bunch : List NId) (oa : Option NAttr) : Bool :=
  match oa with
  | some a =>
    (match a.inputs with
     | some nio => !(nio.ids.all (fun x => decide (x ∈ bunch)))
     | none => false)
  | none => false

/-- `Dispatcher.get_sub_dsp` (src/schedula/__init__.py lines 923..1018).
`get_node` path resolution (utils/base.py, absent from src/) is the
identity on plain node ids and is modelled as such.  The four passes
follow the source: remove function nodes without all inputs in the bunch,
remove the edges of edges_bunch, remove function-typed nodes with no
outgoing edge, remove isolates; finally restrict the original default
values to the remaining nodes. -/
def get_sub_dsp (dsp : Dsp) (nodes_bunch : List NId)
    (edges_bunch : Option (List (NId × NId))) : Dsp :=
  let sub := dsp.copy_structure (some (subgraphD dsp.dmap nodes_bunch))
  let g1 := nodes_bunch.foldl (fun (g : Dmap) u =>
    if pass1Drop nodes_bunch (g.node? u) then g.removeNode u else g) sub.dmap
  let g2 :=
    match edges_bunch with
    | some eb => eb.foldl (fun (g : Dmap) (e : NId × NId) => g.removeEdge e.1 e.2) g1
    | none => g1
  let funs := (g2.nodes.filter (fun (p : NId × NAttr) =>
    decide (p.2.ntype = NType.function))).map Prod.fst
  let g3 := funs.foldl (fun (g : Dmap) u =>
    if g.outDegree u = 0 then g.removeNode u else g) g2
  let g4 := (g3.isolatesL).foldl (fun (g : Dmap) u => g.removeNode u) g3
  { sub with
    dmap := g4,
    default_values := dsp.default_values.filter (fun p => g4.has_node p.1) }

/-- "Function node" in the broad sense of the spec data model (a
sub-dispatcher node is a function node whose function is a dispatcher). -/
def isFunctionNodeB (a : NAttr) : Bool :=
  decide (a.ntype = NType.function) || decide (a.ntype = NType.dispatcher)

/-- The result described by claim C6 read literally: induced subgraph with
the edges of E removed, from which every function node (broad sense) that
lacks some input in N or retains no outgoing edge is dropped, every
isolated node is dropped, and the defaults are restricted to the retained
nodes. -/
def C6_claimResult (dsp : Dsp) (N : List NId) (E : List (NId × NId)) :
    Dmap × List (NId × Dfl) :=
  let g0 := subgraphD dsp.dmap N
  let g : Dmap := { g0 with edges := g0.edges.filter (fun e => decide (¬ e.1 ∈ E)) }
  let d1 := (g.nodes.filter (fun p =>
    isFunctionNodeB p.2 &&
      ((match p.2.inputs with
        | some nio => !(nio.ids.all (fun x => decide (x ∈ N)))
        | none => false)
       || g.outDegree p.1 = 0))).map Prod.fst
  let g1 := removeManyD g d1
  let g2 := removeManyD g1 g1.isolatesL
  (g2, dsp.default_values.filter (fun p => g2.has_node p.1))

/-- The result get_sub_dsp actually computes, stated declaratively
(the amended claim): induced subgraph minus E; drop every node carrying an
`inputs` attribute that lacks some input in N (this covers both plain
function nodes and sub-dispatcher nodes); drop every strictly
function-typed node that retains no outgoing edge (sub-dispatcher nodes
are retained here); drop isolates; restrict defaults to the retained
nodes. -/
def C6_amendedResult (dsp : Dsp) (N : List NId) (E : List (NId × NId)) :
    Dmap × List (NId × Dfl) :=
  let g0 := subgraphD dsp.dmap N
  let g : Dmap := { g0 with edges := g0.edges.filter (fun e => decide (¬ e.1 ∈ E)) }
  let d1 := N.filter (fun u => pass1Drop N (g.node? u))
  let g1 := removeManyD g d1
  let d3 := (g1.nodes.filter (fun p =>
    decide (p.2.ntype = NType.function) && (g1.outDegree p.1 = 0))).map Prod.fst
  let g2 := removeManyD g1 d3
  let g3 := removeManyD g2 g2.isolatesL
  (g3, dsp.default_values.filter (fun p => g3.has_node p.1))

def exChild : ChildInfo :=
  { cname := "S",
    cnodes := [(NId.str "a", NType.data), (NId.str "c", NType.data)] }

def exDspP : Dsp :=
  (add_dispatcher ((add_data (mkDispatcher) (some (NId.str "A"))).1) exChild
    [(NId.str "A", [NId.str "a"])] [(NId.str "c", [NId.str "C"])]).1

/-- `combine_dicts` (src/schedula/utils/dsp.py lines 35..71) without copy
and base: sequential dict.update into a fresh dict; the single-dict
shortcut `dicts[0].copy()` coincides with it, and updating with an empty
dict is the identity, matching the `if d` guard. -/
def combine_dicts (ds : List (List (NId × Val))) : List (NId × Val) :=
  ds.foldl (fun cd d => d.foldl (fun cd p => listUpd cd p.1 p.2) cd) []

/-- The `output_type` strings accepted by selector and the SubDispatch
family: 'all', 'list', 'dict', 'values'. -/
inductive OutType where
  | all
  | lst
  | dct
  | values
deriving DecidableEq, Repr

/-- A value returned by a SubDispatch-family call: the whole solution
dict, a list of output values, a single value or a tuple (bypass). -/
inductive PyRet where
  | dict (d : List (NId × Val))
  | list (l : List Val)
  | single (v : Val)
  | tuple (l : List Val)
deriving DecidableEq, Repr

/-- Failures of the wrapper calls: DispatcherError carries the partial
solution (utils/exc.py), TypeError carries the message. -/
inductive SDFail where
  | dispatcherError (sol : List (NId × Val))
  | typeError (msg : String)
deriving DecidableEq, Repr

/-- The list comprehension over dictionary lookups in `selector`:
left-to-right, KeyError on the first missing key. -/
def lookups (d : List (NId × Val)) : List NId → Except String (List Val)
  | [] => Except.ok []
  | k :: rest =>
    match PyAssoc.get? d k with
    | none => Except.error "KeyError"
    | some v => (lookups d rest).map (fun vs => v :: vs)

/-- The dict comprehension over dictionary lookups in `selector`:
left-to-right insertion, KeyError on the first missing key. -/
def dictCompGo (d : List (NId × Val)) (acc : List (NId × Val)) :
    List NId → Except String (List (NId × Val))
  | [] => Except.ok acc
  | k :: rest =>
    match PyAssoc.get? d k with
    | none => Except.error "KeyError"
    | some v => dictCompGo d (listUpd acc k v) rest

def dictComp (d : List (NId × Val)) (keys : List NId) :
    Except String (List (NId × Val)) :=
  dictCompGo d [] keys

/-- `bypass` (src/schedula/utils/dsp.py lines 74..101) without copy: a
single argument is returned as is, otherwise the argument tuple. -/
def bypassVals (l : List Val) : PyRet :=
  match l with
  | [v] => PyRet.single v
  | _ => PyRet.tuple l

/-- `selector` (src/schedula/utils/dsp.py lines 225..284) with
allow_miss False and copy False: 'list' collects the values, 'values'
collects and bypasses, anything else (including 'dict') builds the
restricted dict. -/
def selector (keys : List NId) (d : List (NId × Val)) (ot : OutType) :
    Except String PyRet :=
  match ot with
  | OutType.lst => (lookups d keys).map PyRet.list
  | OutType.values => (lookups d keys).map bypassVals
  | _ => (dictComp d keys).map PyRet.dict

/-- The state of a SubDispatch wrapper that its `_return` reads: the
declared outputs and the output type.  The dispatch engine itself
(Solution, utils/sol.py, absent from src/) is passed as a function
parameter `run` wherever a dispatch is performed. -/
structure SubDispatchM where
  outputs : Option (List NId)
  output_type : OutType
deriving DecidableEq, Repr

/-- `SubDispatch._return` (src/schedula/utils/dsp.py lines 723..744):
output_type 'all' returns the whole solution without looking at the
declared outputs; any other output type goes through selector, and a
KeyError becomes a DispatcherError carrying the solution.  With outputs
None and a non-'all' type, iterating None raises a TypeError that the
KeyError handler does not catch. -/
def SubDispatch_return (s : SubDispatchM) (solution : List (NId × Val)) :
    Except SDFail PyRet :=
  match s.output_type with
  | OutType.all => Except.ok (PyRet.dict solution)
  | ot =>
    match s.outputs with
    | none => Except.error (SDFail.typeError "argument of type NoneType is not iterable")
    | some outs =>
      match selector outs solution ot with
      | Except.ok r => Except.ok r
      | Except.error _ => Except.error (SDFail.dispatcherError solution)

/-- `SubDispatch.__call__` (src/schedula/utils/dsp.py lines 708..721):
combines the input dicts, dispatches (`run` stands for
`self.dsp.dispatch`) and returns through `_return`. -/
def SubDispatch_call (s : SubDispatchM)
    (run : List (NId × Val) → List (NId × Val))
    (input_dicts : List (List (NId × Val))) : Except SDFail PyRet :=
  SubDispatch_return s (run (combine_dicts input_dicts))

/-- `map_list` (src/schedula/utils/dsp.py lines 165..223) restricted to
plain string keys, as SubDispatchFunction uses it: zips the declared ids
with the positional arguments into a dict. -/
def map_list (key_map : List NId) (args : List Val) : List (NId × Val) :=
  (key_map.zip args).foldl (fun d p => listUpd d p.1 p.2) []

/-- What `SubDispatchFunction.__call__` reads of its state: the function
name (dsp.name), the declared input ids, the node ids of the frozen
dispatcher, the pre-computed Solution inputs, and the outputs and output
type handed to `_return`. -/
structure SDFState where
  fname : String
  inputs : List NId
  nodeIds : List NId
  solInputs : List (NId × Val)
  outputs : Option (List NId)
  output_type : OutType
deriving DecidableEq, Repr

/-- The tail of `SubDispatchFunction.__call__` after both keyword checks
pass (src/schedula/utils/dsp.py lines 898..913): combine
`sol.inputs, inputs, kwargs`, dispatch, return through `_return`. -/
def SDF_tail (s : SDFState) (run : List (NId × Val) → List (NId × Val))
    (inputs kwargs : List (NId × Val)) : Except SDFail PyRet :=
  SubDispatch_return ⟨s.outputs, s.output_type⟩
    (run (combine_dicts [s.solInputs, inputs, kwargs]))

/-- The unknown-keyword check (src/schedula/utils/dsp.py lines 892..895):
`next((i for i in sorted(kwargs) if i not in dsp.nodes), None)` followed
by `if i:` - the found id is tested for Python string truthiness, so an
empty-string keyword escapes the TypeError. -/
def SDF_unk (s : SDFState) (run : List (NId × Val) → List (NId × Val))
    (inputs kwargs : List (NId × Val)) : Except SDFail PyRet :=
  match (sortIds (kwargs.map Prod.fst)).find?
      (fun k => !(decide (k ∈ s.nodeIds))) with
  | some k =>
    if k.py_truthy then
      Except.error (SDFail.typeError
        (s.fname ++ "() got an unexpected keyword argument " ++ k.key))
    else SDF_tail s run inputs kwargs
  | none => SDF_tail s run inputs kwargs

/-- `SubDispatchFunction.__call__` (src/schedula/utils/dsp.py lines
882..913).  The duplicate-argument check is
`next((i for i in kwargs if i in inputs), None)` followed by `if i:`,
where `inputs` is the dict built from the positional arguments; as in
the unknown-keyword check, the truthiness test lets an empty-string
keyword escape. -/
def SubDispatchFunction_call (s : SDFState)
    (run : List (NId × Val) → List (NId × Val))
    (args : List Val) (kwargs : List (NId × Val)) : Except SDFail PyRet :=
  match kwargs.find? (fun p => PyAssoc.hasKey (map_list s.inputs args) p.1) with
  | some p =>
    if p.1.py_truthy then
      Except.error (SDFail.typeError
        (s.fname ++ "() got multiple values for argument " ++ p.1.key))
    else SDF_unk s run (map_list s.inputs args) kwargs
  | none => SDF_unk s run (map_list s.inputs args) kwargs

/-- A concrete frozen SubDispatchFunction state: name f, one declared
positional input x, dispatcher nodes x and y, outputs y as a list. -/
def exSDF : SDFState :=
  { fname := "f",
    inputs := [NId.str "x"],
    nodeIds := [NId.str "x", NId.str "y"],
    solInputs := [],
    outputs := some [NId.str "y"],
    output_type := OutType.lst }

-- ===================== THEOREMS =====================

theorem find?_upd {α β : Type} [DecidableEq α] (l : List (α × β)) (k k' : α) (a : β) :
    (l.map (fun p => if p.1 = k then (k, a) else p)).find? (fun p => p.1 = k')
    = if k' = k then (l.find? (fun p => p.1 = k)).map (fun _ => (k, a))
      else l.find? (fun p => p.1 = k') := by
  induction l with
  | nil => by_cases h : k' = k <;> simp [h]
  | cons hd tl ih =>
    by_cases h1 : hd.1 = k
    · by_cases h2 : k' = k
      · subst h2; simp [List.find?, h1, ih]
      · simp only [List.map_cons, List.find?, h1, if_pos rfl]
        have hne : ((k, a).1 = k') = False := by simp [Ne.symm h2]
        simp [hne, h1, ih, h2, Ne.symm h2]
    · by_cases h2 : k' = k
      · subst h2
        simp only [List.map_cons, List.find?, if_neg h1]
        simp [h1, ih]
      · simp only [List.map_cons, List.find?, if_neg h1]
        by_cases h3 : hd.1 = k'
        · simp [h3, h2]
        · simp [h3, ih, h2]

theorem listUpd_find? {α β : Type} [DecidableEq α] (l : List (α × β)) (k k' : α) (v : β) :
    (listUpd l k v).find? (fun p => p.1 = k')
      = if k' = k then some (k, v) else l.find? (fun p => p.1 = k') := by
  unfold listUpd
  by_cases h : (l.find? (fun p => p.1 = k)).isSome
  · rw [if_pos h, find?_upd]
    by_cases h2 : k' = k
    · rw [if_pos h2, if_pos h2]
      cases hf : l.find? (fun p => p.1 = k) with
      | none => rw [hf] at h; simp at h
      | some p => simp
    · rw [if_neg h2, if_neg h2]
  · rw [if_neg h, List.find?_append]
    by_cases h2 : k' = k
    · subst h2
      cases hf : l.find? (fun p => p.1 = k') with
      | none => simp [List.find?]
      | some p => rw [hf] at h; simp at h
    · cases hf : l.find? (fun p => p.1 = k') with
      | none =>
        have hkk : ¬ k = k' := fun he => h2 he.symm
        simp [hf, List.find?, hkk, h2]
      | some p => simp [hf, h2]

theorem Dmap.node?_setNode (g : Dmap) (k : NId) (a : NAttr) (k' : NId) :
    (g.setNode k a).node? k' = if k' = k then some a else g.node? k' := by
  unfold Dmap.setNode Dmap.node?
  show ((listUpd g.nodes k a).find? (fun p => p.1 = k')).map Prod.snd = _
  rw [listUpd_find?]
  by_cases h : k' = k <;> simp [h]

theorem Dmap.has_node_setNode (g : Dmap) (k : NId) (a : NAttr) (k' : NId) :
    (g.setNode k a).has_node k' = (k' = k ∨ g.has_node k' : Prop) := by
  unfold Dmap.has_node
  rw [Dmap.node?_setNode]
  by_cases h : k' = k <;> simp [h]

theorem Dmap.edge?_addEdge (g : Dmap) (u v : NId) (w : Option Int) (a b : NId) :
    (g.addEdge u v w).edge? a b = if (a, b) = (u, v) then some w else g.edge? a b := by
  unfold Dmap.addEdge Dmap.edge?
  show ((listUpd g.edges (u, v) w).find? (fun e => e.1 = (a, b))).map Prod.snd = _
  rw [listUpd_find?]
  by_cases h : (a, b) = (u, v) <;> simp [h]

theorem Dmap.node?_addEdge (g : Dmap) (u v : NId) (w : Option Int) (k : NId) :
    (g.addEdge u v w).node? k = g.node? k := rfl

theorem Dmap.nodes_addEdge (g : Dmap) (u v : NId) (w : Option Int) :
    (g.addEdge u v w).nodes = g.nodes := rfl

theorem Dmap.edges_setNode (g : Dmap) (k : NId) (a : NAttr) :
    (g.setNode k a).edges = g.edges := rfl

theorem sfxStep_le (guess : String) (acc : Nat) (p : NId × NAttr) :
    acc ≤ sfxStep guess acc p := by
  unfold sfxStep
  cases p.1 <;> simp
  case sfx b m => by_cases h : b = guess <;> simp [h, Nat.le_max_left]

theorem foldl_sfxStep_mono (guess : String) (l : List (NId × NAttr)) (acc : Nat) :
    acc ≤ l.foldl (sfxStep guess) acc := by
  induction l generalizing acc with
  | nil => simp
  | cons hd tl ih => exact le_trans (sfxStep_le guess acc hd) (ih _)

theorem foldl_sfxStep_bound (guess : String) (l : List (NId × NAttr))
    (p : NId × NAttr) (n : Nat) (hk : p.1 = NId.sfx guess n) :
    ∀ acc, p ∈ l → n < l.foldl (sfxStep guess) acc := by
  induction l with
  | nil => intro acc hp; simp at hp
  | cons hd tl ih =>
    intro acc hp
    rcases List.mem_cons.mp hp with h | h
    · subst h
      have hstep : n + 1 ≤ sfxStep guess acc p := by
        unfold sfxStep; rw [hk]; simp
      calc n < n + 1 := Nat.lt_succ_self n
        _ ≤ sfxStep guess acc p := hstep
        _ ≤ tl.foldl (sfxStep guess) (sfxStep guess acc p) := foldl_sfxStep_mono _ _ _
    · exact ih _ h

theorem get_unused_fresh (g : Dmap) (guess : String) :
    g.has_node (get_unused_node_id g guess) = false := by
  unfold get_unused_node_id
  by_cases h : g.has_node (NId.str guess)
  · simp only [h, if_pos]
    unfold Dmap.has_node Dmap.node?
    cases hf : g.nodes.find? (fun p =>
        p.1 = NId.sfx guess (g.nodes.foldl (fun acc p =>
          match p.1 with
          | NId.sfx b n => if b = guess then max acc (n + 1) else acc
          | _ => acc) 0)) with
    | none => simp
    | some p =>
      exfalso
      have hmem := List.mem_of_find?_eq_some hf
      have hkey := List.find?_some hf
      simp only [decide_eq_true_eq] at hkey
      have hb : g.nodes.foldl (fun acc p =>
          match p.1 with
          | NId.sfx b n => if b = guess then max acc (n + 1) else acc
          | _ => acc) 0 = g.nodes.foldl (sfxStep guess) 0 := by
        unfold sfxStep; rfl
      rw [hb] at hkey
      exact absurd (foldl_sfxStep_bound guess g.nodes p _ hkey 0 hmem) (lt_irrefl _)
  · simp [h]

theorem set_default_value_dmap {dsp : Dsp} {k : NId} {v : Option Val} {d : Int}
    {s' : Dsp} (h : set_default_value dsp k v d = Except.ok s') :
    s'.dmap = dsp.dmap := by
  unfold set_default_value at h
  cases hn : dsp.node? k with
  | none => rw [hn] at h; exact absurd h (by simp)
  | some a =>
    rw [hn] at h
    simp only at h
    by_cases ht : a.ntype = NType.data
    · rw [if_pos ht] at h
      cases v with
      | none =>
        have h2 := Except.ok.inj h
        rw [← h2]
      | some w =>
        have h2 := Except.ok.inj h
        rw [← h2]
    · rw [if_neg ht] at h; exact absurd h (by simp)

theorem add_data_core_dmap (dsp : Dsp) (k : NId) (dv : Option Val) (idist : Int)
    (wi : Bool) (wc : Option Bool) (fn : Option String) :
    ((add_data_core dsp k dv idist wi wc fn).1).dmap
      = dsp.dmap.setNode k (add_data_attr dsp k wi wc fn) := by
  unfold add_data_core
  dsimp only
  split
  · rename_i d heq
    simpa using set_default_value_dmap heq
  · rfl

theorem add_data_core_nodeType (dsp : Dsp) (k : NId) (dv : Option Val)
    (idist : Int) (wi : Bool) (wc : Option Bool) (fn : Option String) (k' : NId) :
    ((add_data_core dsp k dv idist wi wc fn).1).nodeType k'
      = if k' = k then some NType.data else dsp.nodeType k' := by
  show Option.map NAttr.ntype (((add_data_core dsp k dv idist wi wc fn).1).dmap.node? k') = _
  rw [add_data_core_dmap, Dmap.node?_setNode]
  by_cases h : k' = k <;> simp [h, add_data_attr, Dsp.nodeType, Dsp.node?]

theorem add_data_result (s : Dsp) (did : Option NId) (dv : Option Val)
    (idist : Int) (wi : Bool) (wc : Option Bool) (fn cb : Option String) :
    (add_data s did dv idist wi wc fn cb).1 = s ∨
    ∃ dv2 wi2 fn2,
      (add_data s did dv idist wi wc fn cb).1
        = (add_data_core s (add_data_rid s did) dv2 idist wi2 wc fn2).1 := by
  unfold add_data
  cases did with
  | none => exact Or.inr ⟨_, _, _, rfl⟩
  | some kk =>
    simp only
    cases hkk : s.nodeType kk with
    | none => exact Or.inr ⟨_, _, _, rfl⟩
    | some t =>
      by_cases ht : t = NType.data
      · simp only [ht, eq_self_iff_true, if_true]
        exact Or.inr ⟨_, _, _, rfl⟩
      · simp only [if_neg ht]
        exact Or.inl trivial

theorem add_data_edges (s : Dsp) (did : Option NId) (dv : Option Val)
    (idist : Int) (wi : Bool) (wc : Option Bool) (fn cb : Option String) :
    ((add_data s did dv idist wi wc fn cb).1).dmap.edges = s.dmap.edges := by
  rcases add_data_result s did dv idist wi wc fn cb with h | ⟨dv2, wi2, fn2, h⟩
  · rw [h]
  · rw [h, add_data_core_dmap, Dmap.edges_setNode]

theorem add_data_rid_ne (s : Dsp) (did : Option NId) (k : NId) (a : NAttr)
    (h : s.node? k = some a) (hne : did ≠ some k) : add_data_rid s did ≠ k := by
  cases did with
  | some kk =>
    intro he
    exact hne (by rw [show add_data_rid s (some kk) = kk from rfl] at he; rw [he])
  | none =>
    intro he
    have hfresh := get_unused_fresh s.dmap "unknown"
    unfold Dmap.has_node at hfresh
    rw [show add_data_rid s none = get_unused_node_id s.dmap "unknown" from rfl] at he
    rw [he] at hfresh
    unfold Dsp.node? at h
    rw [h] at hfresh
    simp at hfresh

theorem add_data_node?_preserve (s : Dsp) (did : Option NId) (dv : Option Val)
    (idist : Int) (wi : Bool) (wc : Option Bool) (fn cb : Option String)
    (k : NId) (a : NAttr) (h : s.node? k = some a) (hne : did ≠ some k) :
    ((add_data s did dv idist wi wc fn cb).1).node? k = some a := by
  rcases add_data_result s did dv idist wi wc fn cb with h2 | ⟨dv2, wi2, fn2, h2⟩
  · rw [h2]; exact h
  · rw [h2]
    show ((add_data_core s (add_data_rid s did) dv2 idist wi2 wc fn2).1).dmap.node? k = some a
    rw [add_data_core_dmap, Dmap.node?_setNode,
      if_neg (fun he => add_data_rid_ne s did k a h hne he.symm)]
    exact h

theorem add_data_nodeType (s : Dsp) (did : Option NId) (dv : Option Val)
    (idist : Int) (wi : Bool) (wc : Option Bool) (fn cb : Option String)
    (k : NId) (t : NType) (h : s.nodeType k = some t) :
    ((add_data s did dv idist wi wc fn cb).1).nodeType k = some t := by
  obtain ⟨a, ha, hat⟩ : ∃ a, s.node? k = some a ∧ a.ntype = t := by
    unfold Dsp.nodeType at h
    cases hx : s.node? k with
    | none => rw [hx] at h; simp at h
    | some a => rw [hx] at h; exact ⟨a, rfl, Option.some.inj h⟩
  by_cases hne : did = some k
  · subst hne
    unfold add_data
    simp only
    cases hkk : s.nodeType k with
    | none => rw [show Dsp.nodeType s k = (s.node? k).map NAttr.ntype from rfl, ha] at hkk; simp at hkk
    | some tt =>
      have htt : tt = t := by
        rw [show Dsp.nodeType s k = (s.node? k).map NAttr.ntype from rfl, ha] at hkk
        have := Option.some.inj hkk
        rw [← this, hat]
      by_cases ht : tt = NType.data
      · simp only [ht, eq_self_iff_true, if_true]
        rw [add_data_core_nodeType, if_pos rfl, ← htt, ht]
      · simp only [if_neg ht]
        exact h
  · have h3 := add_data_node?_preserve s did dv idist wi wc fn cb k a ha hne
    unfold Dsp.nodeType
    rw [h3]
    simp [hat]

theorem add_func_edges_node? (fid : NId) (bunch : List NId)
    (w : List (NId × Int)) (inp : Bool) :
    ∀ (s : Dsp) (k : NId) (a : NAttr), s.node? k = some a →
      (add_func_edges s fid bunch w inp).node? k = some a := by
  induction bunch with
  | nil => intro s k a h; exact h
  | cons u rest ih =>
    intro s k a h
    show (add_func_edges _ fid rest w inp).node? k = some a
    apply ih
    by_cases hu : s.dmap.has_node u
    · simp only [hu, if_pos]
      cases inp <;> exact h
    · have hne : some u ≠ some k := by
        intro he
        have he2 : u = k := Option.some.inj he
        unfold Dmap.has_node at hu
        rw [he2] at hu
        unfold Dsp.node? at h
        rw [h] at hu
        simp at hu
      have h2 := add_data_node?_preserve s (some u) none 0 false none none none k a h hne
      simp only [hu, Bool.false_eq_true, if_neg, not_false_iff]
      cases inp <;> exact h2

theorem add_func_edges_edges_congr (fid : NId) (bunch : List NId)
    (w : List (NId × Int)) (inp : Bool) :
    ∀ (s : Dsp) (a b : NId), ¬ a = fid → ¬ b = fid →
      (add_func_edges s fid bunch w inp).dmap.edge? a b = s.dmap.edge? a b := by
  induction bunch with
  | nil => intro s a b _ _; rfl
  | cons u rest ih =>
    intro s a b ha hb
    show (add_func_edges _ fid rest w inp).dmap.edge? a b = _
    rw [ih _ a b ha hb]
    have hs1 : ∀ (s1 : Dsp), s1.dmap.edges = s.dmap.edges →
        ((if inp then { s1 with dmap := s1.dmap.addEdge u fid ((PyAssoc.get? w u).map id) }
          else { s1 with dmap := s1.dmap.addEdge fid u ((PyAssoc.get? w u).map id) }
          : Dsp)).dmap.edge? a b = s.dmap.edge? a b := by
      intro s1 he
      cases inp
      · simp only [Bool.false_eq_true, if_neg, not_false_iff]
        rw [Dmap.edge?_addEdge, if_neg (by intro hp; exact ha (congrArg Prod.fst hp))]
        show (s1.dmap.edges.find? (fun e => e.1 = (a, b))).map Prod.snd = _
        rw [he]
        rfl
      · simp only [if_pos]
        rw [Dmap.edge?_addEdge, if_neg (by intro hp; exact hb (congrArg Prod.snd hp))]
        show (s1.dmap.edges.find? (fun e => e.1 = (a, b))).map Prod.snd = _
        rw [he]
        rfl
    by_cases hu : s.dmap.has_node u
    · simp only [hu, if_pos]
      exact hs1 s rfl
    · simp only [hu, Bool.false_eq_true, if_neg, not_false_iff]
      exact hs1 _ (add_data_edges s (some u) none 0 false none none none)

theorem add_func_edges_edge_isSome (fid : NId) (bunch : List NId)
    (w : List (NId × Int)) (inp : Bool) :
    ∀ (s : Dsp) (a b : NId), (s.dmap.edge? a b).isSome →
      ((add_func_edges s fid bunch w inp).dmap.edge? a b).isSome := by
  induction bunch with
  | nil => intro s a b h; exact h
  | cons u rest ih =>
    intro s a b h
    show ((add_func_edges _ fid rest w inp).dmap.edge? a b).isSome
    apply ih
    have hs1 : ∀ (s1 : Dsp), s1.dmap.edges = s.dmap.edges →
        (((if inp then { s1 with dmap := s1.dmap.addEdge u fid ((PyAssoc.get? w u).map id) }
          else { s1 with dmap := s1.dmap.addEdge fid u ((PyAssoc.get? w u).map id) }
          : Dsp)).dmap.edge? a b).isSome := by
      intro s1 he
      have hsame : s1.dmap.edge? a b = s.dmap.edge? a b := by
        show (s1.dmap.edges.find? (fun e => e.1 = (a, b))).map Prod.snd = _
        rw [he]; rfl
      cases inp
      · simp only [Bool.false_eq_true, if_neg, not_false_iff]
        rw [Dmap.edge?_addEdge]
        by_cases hp : (a, b) = (fid, u)
        · rw [if_pos hp]; simp
        · rw [if_neg hp, hsame]; exact h
      · simp only [if_pos]
        rw [Dmap.edge?_addEdge]
        by_cases hp : (a, b) = (u, fid)
        · rw [if_pos hp]; simp
        · rw [if_neg hp, hsame]; exact h
    by_cases hu : s.dmap.has_node u
    · simp only [hu, if_pos]
      exact hs1 s rfl
    · simp only [hu, Bool.false_eq_true, if_neg, not_false_iff]
      exact hs1 _ (add_data_edges s (some u) none 0 false none none none)

theorem add_func_edges_mem_in (fid : NId) (bunch : List NId)
    (w : List (NId × Int)) :
    ∀ (s : Dsp) (u : NId), u ∈ bunch →
      ((add_func_edges s fid bunch w true).dmap.edge? u fid).isSome := by
  induction bunch with
  | nil => intro s u h; simp at h
  | cons v rest ih =>
    intro s u h
    rcases List.mem_cons.mp h with he | hm
    · subst he
      show ((add_func_edges _ fid rest w true).dmap.edge? u fid).isSome
      apply add_func_edges_edge_isSome
      dsimp only
      have hgoal : ∀ (s1 : Dsp),
          ((Dmap.addEdge s1.dmap u fid ((PyAssoc.get? w u).map id)).edge? u fid).isSome := by
        intro s1
        rw [Dmap.edge?_addEdge, if_pos rfl]
        simp
      by_cases hu : s.dmap.has_node u
      · simp only [hu, if_pos, eq_self_iff_true, if_true]
        exact hgoal s
      · simp only [hu, Bool.false_eq_true, if_neg, not_false_iff, eq_self_iff_true, if_true]
        exact hgoal _
    · exact ih _ u hm

theorem add_func_edges_mem_out (fid : NId) (bunch : List NId)
    (w : List (NId × Int)) :
    ∀ (s : Dsp) (u : NId), u ∈ bunch →
      ((add_func_edges s fid bunch w false).dmap.edge? fid u).isSome := by
  induction bunch with
  | nil => intro s u h; simp at h
  | cons v rest ih =>
    intro s u h
    rcases List.mem_cons.mp h with he | hm
    · subst he
      show ((add_func_edges _ fid rest w false).dmap.edge? fid u).isSome
      apply add_func_edges_edge_isSome
      dsimp only
      have hgoal : ∀ (s1 : Dsp),
          ((Dmap.addEdge s1.dmap fid u ((PyAssoc.get? w u).map id)).edge? fid u).isSome := by
        intro s1
        rw [Dmap.edge?_addEdge, if_pos rfl]
        simp
      by_cases hu : s.dmap.has_node u
      · simp only [hu, if_pos, Bool.false_eq_true, if_neg, not_false_iff]
        exact hgoal s
      · simp only [hu, Bool.false_eq_true, if_neg, not_false_iff]
        exact hgoal _
    · exact ih _ u hm

theorem find?_mapval {α β : Type} [DecidableEq α] (l : List (α × β)) (fid : α)
    (f : β → β) (k : α) :
    (l.map (fun p => if p.1 = fid then (p.1, f p.2) else p)).find? (fun p => p.1 = k)
      = (l.find? (fun p => p.1 = k)).map
          (fun p => if p.1 = fid then (p.1, f p.2) else p) := by
  induction l with
  | nil => simp
  | cons hd tl ih =>
    simp only [List.map_cons, List.find?]
    by_cases hf : hd.1 = fid
    · simp only [if_pos hf]
      by_cases hk : hd.1 = k
      · have h1 : ((hd.1, f hd.2).1 = k) = True := by simp [hk]
        have hkf : k = fid := hk.symm.trans hf
        simp [h1, hk, hf, hkf]
      · have h1 : ((hd.1, f hd.2).1 = k) = False := by simp [hk]
        simp [h1, hk, ih]
    · simp only [if_neg hf]
      by_cases hk : hd.1 = k
      · have hkf : ¬ k = fid := fun he => hf (hk.trans he)
        simp [hk, hf, hkf]
      · simp [hk, ih]

theorem resolve_inputs_node? (s : Dsp) (inputs : Option (List NId)) (k : NId)
    (a : NAttr) (h : s.node? k = some a) :
    ((resolve_inputs s inputs).1).node? k = some a := by
  unfold resolve_inputs
  cases inputs with
  | some l => exact h
  | none =>
    by_cases hs : s.dmap.has_node NId.START
    · simp only [hs, if_pos]
      exact h
    · simp only [hs, Bool.false_eq_true, if_neg, not_false_iff]
      apply add_data_node?_preserve s (some NId.START) none 0 false none none none k a h
      intro he
      have he2 : NId.START = k := Option.some.inj he
      unfold Dmap.has_node at hs
      rw [he2] at hs
      unfold Dsp.node? at h
      rw [h] at hs
      simp at hs

theorem resolve_outputs_node? (s : Dsp) (outputs : Option (List NId)) (k : NId)
    (a : NAttr) (h : s.node? k = some a) :
    ((resolve_outputs s outputs).1).node? k = some a := by
  unfold resolve_outputs
  cases outputs with
  | some l => exact h
  | none =>
    by_cases hs : s.dmap.has_node NId.SINK
    · simp only [hs, if_pos]
      exact h
    · simp only [hs, Bool.false_eq_true, if_neg, not_false_iff]
      apply add_data_node?_preserve s (some NId.SINK) none 0 false none none none k a h
      intro he
      have he2 : NId.SINK = k := Option.some.inj he
      unfold Dmap.has_node at hs
      rw [he2] at hs
      unfold Dsp.node? at h
      rw [h] at hs
      simp at hs

theorem resolve_inputs_edges (s : Dsp) (inputs : Option (List NId)) :
    ((resolve_inputs s inputs).1).dmap.edges = s.dmap.edges := by
  unfold resolve_inputs
  cases inputs with
  | some l => rfl
  | none =>
    by_cases hs : s.dmap.has_node NId.START
    · simp [hs]
    · simp only [hs, Bool.false_eq_true, if_neg, not_false_iff]
      exact add_data_edges s (some NId.START) none 0 false none none none

theorem resolve_outputs_edges (s : Dsp) (outputs : Option (List NId)) :
    ((resolve_outputs s outputs).1).dmap.edges = s.dmap.edges := by
  unfold resolve_outputs
  cases outputs with
  | some l => rfl
  | none =>
    by_cases hs : s.dmap.has_node NId.SINK
    · simp [hs]
    · simp only [hs, Bool.false_eq_true, if_neg, not_false_iff]
      exact add_data_edges s (some NId.SINK) none 0 false none none none

theorem add_function_core_node?_preserve (s : Dsp) (fname : String)
    (fn : Option String) (inl outl : List NId) (w : Option Int)
    (iw ow : List (NId × Int)) (kw : AddFnKw) (k : NId) (a : NAttr)
    (h : s.node? k = some a) :
    ((add_function_core s fname fn inl outl w iw ow kw).1).node? k = some a := by
  unfold add_function_core
  by_cases hc : kindClash s inl ∨ kindClash s outl
  · simp only [hc, if_pos]
    exact h
  · simp only [hc, if_neg, not_false_iff]
    apply add_func_edges_node?
    apply add_func_edges_node?
    have hfresh := get_unused_fresh s.dmap fname
    have hne : k ≠ get_unused_node_id s.dmap fname := by
      intro he
      unfold Dmap.has_node at hfresh
      rw [← he] at hfresh
      unfold Dsp.node? at h
      rw [h] at hfresh
      simp at hfresh
    show (s.dmap.setNode (get_unused_node_id s.dmap fname) _).node? k = some a
    rw [Dmap.node?_setNode, if_neg hne]
    exact h

theorem add_function_node?_preserve (s : Dsp) (fid fn : Option String)
    (i o : Option (List NId)) (w : Option Int) (iw ow : List (NId × Int))
    (kw : AddFnKw) (k : NId) (a : NAttr) (h : s.node? k = some a) :
    ((add_function s fid fn i o w iw ow kw).1).node? k = some a := by
  unfold add_function
  have h1 := resolve_inputs_node? s i k a h
  have h2 := resolve_outputs_node? (resolve_inputs s i).1 o k a h1
  cases fid <|> fn with
  | none => exact h2
  | some fname => exact add_function_core_node?_preserve _ fname fn _ _ w iw ow kw k a h2

theorem add_function_nodeType (s : Dsp) (fid fn : Option String)
    (i o : Option (List NId)) (w : Option Int) (iw ow : List (NId × Int))
    (kw : AddFnKw) (k : NId) (t : NType) (h : s.nodeType k = some t) :
    ((add_function s fid fn i o w iw ow kw).1).nodeType k = some t := by
  obtain ⟨a, ha, hat⟩ : ∃ a, s.node? k = some a ∧ a.ntype = t := by
    unfold Dsp.nodeType at h
    cases hx : s.node? k with
    | none => rw [hx] at h; simp at h
    | some a => rw [hx] at h; exact ⟨a, rfl, Option.some.inj h⟩
  have h2 := add_function_node?_preserve s fid fn i o w iw ow kw k a ha
  unfold Dsp.nodeType
  rw [h2]
  simp [hat]

theorem set_dsp_io_node? (dsp : Dsp) (fid : NId)
    (inputs outputs : List (NId × List NId)) (k : NId) :
    (set_dsp_io dsp fid inputs outputs).node? k
      = (dsp.node? k).map (fun a =>
          if k = fid then io_upd inputs outputs a else a) := by
  show ((dsp.dmap.nodes.map (fun p =>
      if p.1 = fid then (p.1, io_upd inputs outputs p.2) else p)).find?
        (fun p => p.1 = k)).map Prod.snd = _
  rw [find?_mapval]
  unfold Dsp.node? Dmap.node?
  cases hf : dsp.dmap.nodes.find? (fun p => p.1 = k) with
  | none => simp
  | some p =>
    have hk := List.find?_some hf
    simp only [decide_eq_true_eq] at hk
    by_cases hp : p.1 = fid
    · have h2 : k = fid := hk ▸ hp
      simp [hp, h2]
    · have h2 : ¬ k = fid := fun he => hp (hk.symm ▸ he)
      simp [hp, h2]

theorem import_defaults_dmap (child : ChildInfo) (inputs : List (NId × List NId)) :
    ∀ (s : Dsp), (inputs.foldl (import_default_step child) s).dmap = s.dmap := by
  induction inputs with
  | nil => intro s; rfl
  | cons hd tl ih =>
    intro s
    rw [List.foldl_cons, ih]
    unfold import_default_step
    cases hd.2.head? with
    | none => rfl
    | some c =>
      simp only
      cases PyAssoc.get? child.cdefaults c with
      | none => rfl
      | some dfl =>
        simp only
        cases hsd : set_default_value s hd.1 (some dfl.value) dfl.initial_dist with
        | ok s2 => simpa using set_default_value_dmap hsd
        | error e => rfl

theorem add_dispatcher_tail_nodeType (child : ChildInfo)
    (inputs outputs : List (NId × List NId)) (incl : Bool)
    (afr : Dsp × Except String NId) (k : NId) (t : NType)
    (h : (afr.1).nodeType k = some t) :
    ((add_dispatcher_tail child inputs outputs incl afr).1).nodeType k = some t := by
  unfold add_dispatcher_tail
  cases hr : afr.2 with
  | error e => exact h
  | ok fid =>
    have hio : (set_dsp_io afr.1 fid inputs outputs).nodeType k = some t := by
      unfold Dsp.nodeType
      rw [set_dsp_io_node?]
      unfold Dsp.nodeType at h
      cases hx : (afr.1).node? k with
      | none => rw [hx] at h; simp at h
      | some a =>
        rw [hx] at h
        have h3 : some (NAttr.ntype a) = some t := h
        show some (NAttr.ntype (if k = fid then io_upd inputs outputs a else a)) = some t
        by_cases hk : k = fid
        · rw [if_pos hk]
          exact h3
        · rw [if_neg hk]
          exact h3
    simp only
    split
    · exact hio
    · split
      · unfold Dsp.nodeType
        show Option.map NAttr.ntype
          (((inputs.foldl (import_default_step child) _).dmap).node? k) = some t
        rw [import_defaults_dmap]
        exact hio
      · exact hio

theorem add_dispatcher_nodeType (s : Dsp) (child : ChildInfo)
    (inputs outputs : List (NId × List NId)) (did : Option String)
    (w : Option Int) (iw : List (NId × Int)) (incl : Bool)
    (k : NId) (t : NType) (h : s.nodeType k = some t) :
    ((add_dispatcher s child inputs outputs did w iw incl).1).nodeType k = some t := by
  unfold add_dispatcher
  apply add_dispatcher_tail_nodeType
  apply add_function_nodeType
  exact h

theorem applyOps_nodeType : ∀ (ops : List BuildOp) (s : Dsp) (k : NId) (t : NType),
    s.nodeType k = some t → (applyOps s ops).nodeType k = some t := by
  intro ops
  induction ops with
  | nil => intro s k t h; exact h
  | cons op rest ih =>
    intro s k t h
    show (applyOps (applyOp s op) rest).nodeType k = some t
    apply ih
    cases op with
    | data a b c d e f g => exact add_data_nodeType s a b c d e f g k t h
    | func a b c d e f g kw => exact add_function_nodeType s a b c d e f g kw k t h
    | dspAdd a b c d e f g => exact add_dispatcher_nodeType s a b c d e f g k t h

theorem Dmap.edge?_congr {g1 g2 : Dmap} (h : g1.edges = g2.edges) (a b : NId) :
    g1.edge? a b = g2.edge? a b := by
  unfold Dmap.edge?
  rw [h]

theorem add_function_core_ret (dsp : Dsp) (fname : String) (fn : Option String)
    (inl outl : List NId) (w : Option Int) (iw ow : List (NId × Int)) (kw : AddFnKw)
    (hnc : ¬ (kindClash dsp inl ∨ kindClash dsp outl)) :
    (add_function_core dsp fname fn inl outl w iw ow kw).2
      = Except.ok (get_unused_node_id dsp.dmap fname) := by
  unfold add_function_core
  simp only [hnc, if_neg, not_false_iff]

theorem add_function_core_err (dsp : Dsp) (fname : String) (fn : Option String)
    (inl outl : List NId) (w : Option Int) (iw ow : List (NId × Int)) (kw : AddFnKw)
    (hc : kindClash dsp inl ∨ kindClash dsp outl) :
    add_function_core dsp fname fn inl outl w iw ow kw
      = (dsp, Except.error "Invalid input id: not a data node") := by
  unfold add_function_core
  simp only [hc, if_pos]

theorem add_function_core_fun_node? (dsp : Dsp) (fname : String) (fn : Option String)
    (inl outl : List NId) (w : Option Int) (iw ow : List (NId × Int)) (kw : AddFnKw)
    (hnc : ¬ (kindClash dsp inl ∨ kindClash dsp outl)) :
    ((add_function_core dsp fname fn inl outl w iw ow kw).1).node?
        (get_unused_node_id dsp.dmap fname)
      = some (add_function_attr dsp inl outl fn w kw) := by
  unfold add_function_core
  simp only [hnc, if_neg, not_false_iff]
  apply add_func_edges_node?
  apply add_func_edges_node?
  show (dsp.dmap.setNode (get_unused_node_id dsp.dmap fname) _).node? _ = _
  rw [Dmap.node?_setNode, if_pos rfl]

theorem add_function_core_edge_preserve (dsp : Dsp) (fname : String)
    (fn : Option String) (inl outl : List NId) (w : Option Int)
    (iw ow : List (NId × Int)) (kw : AddFnKw)
    (hnc : ¬ (kindClash dsp inl ∨ kindClash dsp outl)) (a b : NId) (ew : Option Int)
    (ha : ¬ a = get_unused_node_id dsp.dmap fname)
    (hb : ¬ b = get_unused_node_id dsp.dmap fname)
    (h : dsp.dmap.edge? a b = some ew) :
    ((add_function_core dsp fname fn inl outl w iw ow kw).1).dmap.edge? a b = some ew := by
  unfold add_function_core
  simp only [hnc, if_neg, not_false_iff]
  rw [add_func_edges_edges_congr _ _ _ _ _ a b ha hb,
    add_func_edges_edges_congr _ _ _ _ _ a b ha hb]
  rw [Dmap.edge?_congr (Dmap.edges_setNode dsp.dmap _ _) a b]
  exact h

theorem add_function_core_edge_in (dsp : Dsp) (fname : String) (fn : Option String)
    (inl outl : List NId) (w : Option Int) (iw ow : List (NId × Int)) (kw : AddFnKw)
    (hnc : ¬ (kindClash dsp inl ∨ kindClash dsp outl)) (u : NId) (hu : u ∈ inl) :
    (((add_function_core dsp fname fn inl outl w iw ow kw).1).dmap.edge? u
        (get_unused_node_id dsp.dmap fname)).isSome := by
  unfold add_function_core
  simp only [hnc, if_neg, not_false_iff]
  apply add_func_edges_edge_isSome
  apply add_func_edges_mem_in _ _ _ _ u hu

theorem add_function_core_edge_out (dsp : Dsp) (fname : String) (fn : Option String)
    (inl outl : List NId) (w : Option Int) (iw ow : List (NId × Int)) (kw : AddFnKw)
    (hnc : ¬ (kindClash dsp inl ∨ kindClash dsp outl)) (u : NId) (hu : u ∈ outl) :
    (((add_function_core dsp fname fn inl outl w iw ow kw).1).dmap.edge?
        (get_unused_node_id dsp.dmap fname) u).isSome := by
  unfold add_function_core
  simp only [hnc, if_neg, not_false_iff]
  apply add_func_edges_mem_out _ _ _ _ u hu

theorem add_function_some_id (s : Dsp) (f : String) (fn : Option String)
    (i o : Option (List NId)) (w : Option Int) (iw ow : List (NId × Int))
    (kw : AddFnKw) :
    add_function s (some f) fn i o w iw ow kw
      = add_function_core (resolve_outputs (resolve_inputs s i).1 o).1 f fn
          (resolve_inputs s i).2 (resolve_outputs (resolve_inputs s i).1 o).2
          w iw ow kw := rfl

theorem add_function_ret_fresh (s : Dsp) (fid fn : Option String)
    (i o : Option (List NId)) (w : Option Int) (iw ow : List (NId × Int))
    (kw : AddFnKw) (r : NId)
    (h : (add_function s fid fn i o w iw ow kw).2 = Except.ok r) :
    s.dmap.has_node r = false := by
  unfold add_function at h
  cases hv : fid <|> fn with
  | none => rw [hv] at h; exact absurd h (by simp)
  | some fname =>
    rw [hv] at h
    simp only at h
    unfold add_function_core at h
    by_cases hc : kindClash (resolve_outputs (resolve_inputs s i).1 o).1
          (resolve_inputs s i).2
        ∨ kindClash (resolve_outputs (resolve_inputs s i).1 o).1
          (resolve_outputs (resolve_inputs s i).1 o).2
    · rw [if_pos hc] at h
      exact absurd h (by simp)
    · rw [if_neg hc] at h
      simp only at h
      have hr : r = get_unused_node_id
          ((resolve_outputs (resolve_inputs s i).1 o).1).dmap fname :=
        (Except.ok.inj h).symm
      by_cases hb : s.dmap.has_node r
      · exfalso
        have hsome : (s.dmap.node? r).isSome := hb
        obtain ⟨a, ha⟩ := Option.isSome_iff_exists.mp hsome
        have h1 := resolve_inputs_node? s i r a ha
        have h2 := resolve_outputs_node? (resolve_inputs s i).1 o r a h1
        have hfresh := get_unused_fresh
            ((resolve_outputs (resolve_inputs s i).1 o).1).dmap fname
        unfold Dmap.has_node at hfresh
        unfold Dsp.node? at h2
        rw [hr] at h2
        rw [h2] at hfresh
        simp at hfresh
      · simpa using hb

theorem add_data_failfast (s : Dsp) (k : NId) (t : NType) (dv : Option Val)
    (idist : Int) (wi : Bool) (wc : Option Bool) (fn cb : Option String)
    (h : s.nodeType k = some t) (ht : ¬ t = NType.data) :
    add_data s (some k) dv idist wi wc fn cb
      = (s, Except.error "Invalid data id: override function") := by
  unfold add_data
  simp only [h, if_neg ht]

/-- C3, counterexample to the claim as stated: in a dispatcher with a data
node "a", calling add_function with the requested id "a" does not fail
fast; it succeeds, returning the fresh derived id "a<0>", and "a" stays a
data node. -/
theorem C3_counterexample :
    (add_function exDspA (some "a") none
        (some [NId.str "x"]) (some [NId.str "y"])).2
      = Except.ok (NId.sfx "a" 0)
    ∧ ((add_function exDspA (some "a") none
        (some [NId.str "x"]) (some [NId.str "y"])).1).nodeType (NId.str "a")
      = some NType.data := by
  constructor <;> rfl

/-- C3 (amended): over any sequence of add_data, add_function and
add_dispatcher calls no bound id ever changes kind; add_data on an id
bound to a function (or sub-dispatcher) node fails fast with ValueError
leaving the state unchanged; add_function never rebinds an existing id:
any id it returns successfully was unbound before the call (it allocates a
fresh derived id instead of failing on a duplicate). -/
theorem C3_kind_invariant :
    (∀ (s : Dsp) (ops : List BuildOp) (k : NId) (t : NType),
        s.nodeType k = some t → (applyOps s ops).nodeType k = some t)
    ∧ (∀ (s : Dsp) (k : NId) (t : NType) (dv : Option Val) (idist : Int)
        (wi : Bool) (wc : Option Bool) (fn cb : Option String),
        s.nodeType k = some t → ¬ t = NType.data →
          add_data s (some k) dv idist wi wc fn cb
            = (s, Except.error "Invalid data id: override function"))
    ∧ (∀ (s : Dsp) (fid fn : Option String) (i o : Option (List NId))
        (w : Option Int) (iw ow : List (NId × Int)) (kw : AddFnKw) (r : NId),
        (add_function s fid fn i o w iw ow kw).2 = Except.ok r →
          s.dmap.has_node r = false) :=
  ⟨fun s ops => applyOps_nodeType ops s, add_data_failfast, add_function_ret_fresh⟩

theorem C3_kind_invariant_witness :
    (applyOps exDspA
        [BuildOp.func (some "a") none (some [NId.str "x"]) (some [NId.str "y"])
          none [] [] {}]).nodeType (NId.str "a") = some NType.data
    ∧ add_data exDspF (some (NId.str "f")) none 0 false none none none
        = (exDspF, Except.error "Invalid data id: override function")
    ∧ exDspA.dmap.has_node (NId.sfx "a" 0) = false :=
  ⟨C3_kind_invariant.1 exDspA
      [BuildOp.func (some "a") none (some [NId.str "x"]) (some [NId.str "y"])
        none [] [] {}] (NId.str "a") NType.data (by rfl),
   C3_kind_invariant.2.1 exDspF (NId.str "f") NType.function none 0 false
      none none none (by rfl) (by decide),
   C3_kind_invariant.2.2 exDspA (some "a") none (some [NId.str "x"])
      (some [NId.str "y"]) none [] [] {} (NId.sfx "a" 0) (by rfl)⟩

/-- C10, counterexample to the claim as stated: with an existing function
node "f" (and data nodes "u", "v"), calling add_function with the
duplicate requested id "f" *and* an input list naming the function node
"f" raises the construction error of the edge helper, so such a call can
raise. -/
theorem C10_counterexample :
    (add_function exDspF (some "f") none
        (some [NId.str "f"]) (some [NId.str "z"])).2
      = Except.error "Invalid input id: not a data node" := by rfl

/-- C10 (amended): a call of add_function whose requested function_id
already names an existing node never raises provided every listed input
and output id is unbound or bound to a data node (no construction error):
it returns a fresh id derived from the requested one (a numbered variant)
that was not previously bound, and every node and edge present before the
call is still present and unchanged afterwards. -/
theorem C10_add_function_frame (s : Dsp) (f : String) (fn : Option String)
    (i o : Option (List NId)) (w : Option Int) (iw ow : List (NId × Int))
    (kw : AddFnKw)
    (hb : s.dmap.has_node (NId.str f) = true)
    (hnc : ¬ (kindClash (resolve_outputs (resolve_inputs s i).1 o).1
          (resolve_inputs s i).2
        ∨ kindClash (resolve_outputs (resolve_inputs s i).1 o).1
          (resolve_outputs (resolve_inputs s i).1 o).2))
    (hwf : ∀ e ∈ s.dmap.edges,
        s.dmap.has_node e.1.1 = true ∧ s.dmap.has_node e.1.2 = true) :
    ((add_function s (some f) fn i o w iw ow kw).2
        = Except.ok (get_unused_node_id
            ((resolve_outputs (resolve_inputs s i).1 o).1).dmap f))
    ∧ s.dmap.has_node (get_unused_node_id
            ((resolve_outputs (resolve_inputs s i).1 o).1).dmap f) = false
    ∧ (∃ n, get_unused_node_id
            ((resolve_outputs (resolve_inputs s i).1 o).1).dmap f = NId.sfx f n)
    ∧ (∀ (k : NId) (a : NAttr), s.node? k = some a →
        ((add_function s (some f) fn i o w iw ow kw).1).node? k = some a)
    ∧ (∀ (a b : NId) (ew : Option Int), s.dmap.edge? a b = some ew →
        ((add_function s (some f) fn i o w iw ow kw).1).dmap.edge? a b = some ew) := by
  have hpres : ∀ (x : NId) (a : NAttr), s.node? x = some a →
      ((resolve_outputs (resolve_inputs s i).1 o).1).node? x = some a := by
    intro x a hx
    exact resolve_outputs_node? (resolve_inputs s i).1 o x a
      (resolve_inputs_node? s i x a hx)
  have hboundne : ∀ (x : NId), s.dmap.has_node x = true →
      ¬ x = get_unused_node_id ((resolve_outputs (resolve_inputs s i).1 o).1).dmap f := by
    intro x hx he
    obtain ⟨a, ha⟩ := Option.isSome_iff_exists.mp hx
    have h2 := hpres x a ha
    have hfresh := get_unused_fresh
        ((resolve_outputs (resolve_inputs s i).1 o).1).dmap f
    unfold Dmap.has_node at hfresh
    unfold Dsp.node? at h2
    rw [he] at h2
    rw [h2] at hfresh
    simp at hfresh
  have hret : (add_function s (some f) fn i o w iw ow kw).2
      = Except.ok (get_unused_node_id
          ((resolve_outputs (resolve_inputs s i).1 o).1).dmap f) := by
    rw [add_function_some_id]
    exact add_function_core_ret _ f fn _ _ w iw ow kw hnc
  refine ⟨hret, add_function_ret_fresh s (some f) fn i o w iw ow kw _ hret, ?_, ?_, ?_⟩
  · have hbro : ((resolve_outputs (resolve_inputs s i).1 o).1).dmap.has_node
        (NId.str f) = true := by
      obtain ⟨a, ha⟩ := Option.isSome_iff_exists.mp hb
      have h2 := hpres (NId.str f) a ha
      unfold Dmap.has_node
      unfold Dsp.node? at h2
      rw [h2]
      rfl
    have hg : get_unused_node_id
        ((resolve_outputs (resolve_inputs s i).1 o).1).dmap f
        = NId.sfx f (((resolve_outputs (resolve_inputs s i).1 o).1).dmap.nodes.foldl
            (fun acc p =>
              match p.1 with
              | NId.sfx b n => if b = f then max acc (n + 1) else acc
              | _ => acc) 0) := by
      unfold get_unused_node_id
      rw [if_pos hbro]
    exact ⟨_, hg⟩
  · intro k a hka
    rw [add_function_some_id]
    exact add_function_core_node?_preserve _ f fn _ _ w iw ow kw k a (hpres k a hka)
  · intro a b ew he
    have hfind : ∃ p, s.dmap.edges.find? (fun e => e.1 = (a, b)) = some p ∧ p.2 = ew := by
      unfold Dmap.edge? at he
      cases hf : s.dmap.edges.find? (fun e => e.1 = (a, b)) with
      | none => rw [hf] at he; simp at he
      | some p =>
        rw [hf] at he
        exact ⟨p, rfl, Option.some.inj he⟩
    obtain ⟨p, hf, hw⟩ := hfind
    have hmem := List.mem_of_find?_eq_some hf
    have hkey := List.find?_some hf
    simp only [decide_eq_true_eq] at hkey
    have hab := hwf p hmem
    rw [hkey] at hab
    have hane := hboundne a hab.1
    have hbne := hboundne b hab.2
    rw [add_function_some_id]
    apply add_function_core_edge_preserve _ f fn _ _ w iw ow kw hnc a b ew hane hbne
    have hee : ((resolve_outputs (resolve_inputs s i).1 o).1).dmap.edges
        = s.dmap.edges := by
      rw [resolve_outputs_edges, resolve_inputs_edges]
    rw [Dmap.edge?_congr hee]
    exact he

theorem C10_add_function_frame_witness :
    exDspF.dmap.has_node (get_unused_node_id
        ((resolve_outputs (resolve_inputs exDspF (some [NId.str "u"])).1
          (some [NId.str "v"])).1).dmap "f") = false :=
  (C10_add_function_frame exDspF "f" none (some [NId.str "u"])
    (some [NId.str "v"]) none [] [] {} (by rfl) (by decide) (by decide)).2.1

theorem resolve_inputs_none_snd (s : Dsp) : (resolve_inputs s none).2 = [NId.START] := by
  show ((if s.dmap.has_node NId.START = true then (s, [NId.START])
      else ((add_data s (some NId.START)).1, [NId.START])).2) = [NId.START]
  split <;> rfl

theorem resolve_outputs_none_snd (s : Dsp) : (resolve_outputs s none).2 = [NId.SINK] := by
  show ((if s.dmap.has_node NId.SINK = true then (s, [NId.SINK])
      else ((add_data s (some NId.SINK)).1, [NId.SINK])).2) = [NId.SINK]
  split <;> rfl

theorem kindClash_false_data (dsp : Dsp) (ids : List NId)
    (h : kindClash dsp ids = false) (u : NId) (hu : u ∈ ids) (t : NType)
    (ht : dsp.nodeType u = some t) : t = NType.data := by
  unfold kindClash at h
  rw [List.any_eq_false] at h
  have h2 := h u hu
  rw [ht] at h2
  simp at h2
  exact h2

theorem resolve_inputs_none_start (s : Dsp) :
    ∃ a, ((resolve_inputs s none).1).node? NId.START = some a := by
  show ∃ a, ((if s.dmap.has_node NId.START = true then (s, [NId.START])
      else ((add_data s (some NId.START)).1, [NId.START])).1).node? NId.START = some a
  by_cases hs : s.dmap.has_node NId.START
  · simp only [hs, if_pos]
    exact Option.isSome_iff_exists.mp hs
  · simp only [hs, Bool.false_eq_true, if_neg, not_false_iff]
    have hn : s.nodeType NId.START = none := by
      unfold Dmap.has_node at hs
      unfold Dsp.nodeType Dsp.node?
      cases hx : s.dmap.node? NId.START with
      | none => rfl
      | some a => rw [hx] at hs; simp at hs
    unfold add_data
    simp only [hn]
    rw [show ∀ (d : Dsp) (k : NId), Dsp.node? d k = d.dmap.node? k from fun _ _ => rfl,
      add_data_core_dmap, Dmap.node?_setNode, if_pos rfl]
    exact ⟨_, rfl⟩

theorem resolve_outputs_none_sink (s : Dsp) :
    ∃ a, ((resolve_outputs s none).1).node? NId.SINK = some a := by
  show ∃ a, ((if s.dmap.has_node NId.SINK = true then (s, [NId.SINK])
      else ((add_data s (some NId.SINK)).1, [NId.SINK])).1).node? NId.SINK = some a
  by_cases hs : s.dmap.has_node NId.SINK
  · simp only [hs, if_pos]
    exact Option.isSome_iff_exists.mp hs
  · simp only [hs, Bool.false_eq_true, if_neg, not_false_iff]
    have hn : s.nodeType NId.SINK = none := by
      unfold Dmap.has_node at hs
      unfold Dsp.nodeType Dsp.node?
      cases hx : s.dmap.node? NId.SINK with
      | none => rfl
      | some a => rw [hx] at hs; simp at hs
    unfold add_data
    simp only [hn]
    rw [show ∀ (d : Dsp) (k : NId), Dsp.node? d k = d.dmap.node? k from fun _ _ => rfl,
      add_data_core_dmap, Dmap.node?_setNode, if_pos rfl]
    exact ⟨_, rfl⟩

/-- C8 (amended): when the inputs argument is omitted the new function
node's input list becomes the single virtual node START (present in the
graph as a data node, created if absent, with a synthetic edge from it to
the function node); when outputs is omitted the output list becomes the
single node SINK likewise; and for every listed (hence every non-empty
explicit) input and output id the corresponding edge is created, so every
function node added with omitted or non-empty inputs and outputs has at
least one input and at least one output.  A listed id bound to a non-data
node is a build-time construction error excluded by hypothesis. -/
theorem C8_start_sink (s : Dsp) (f : String) (fn : Option String)
    (i o : Option (List NId)) (w : Option Int) (iw ow : List (NId × Int))
    (kw : AddFnKw)
    (hnc : ¬ (kindClash (resolve_outputs (resolve_inputs s i).1 o).1
          (resolve_inputs s i).2
        ∨ kindClash (resolve_outputs (resolve_inputs s i).1 o).1
          (resolve_outputs (resolve_inputs s i).1 o).2)) :
    ((add_function s (some f) fn i o w iw ow kw).2
        = Except.ok (get_unused_node_id
            ((resolve_outputs (resolve_inputs s i).1 o).1).dmap f))
    ∧ ((add_function s (some f) fn i o w iw ow kw).1).node?
          (get_unused_node_id ((resolve_outputs (resolve_inputs s i).1 o).1).dmap f)
        = some (add_function_attr (resolve_outputs (resolve_inputs s i).1 o).1
            (resolve_inputs s i).2 (resolve_outputs (resolve_inputs s i).1 o).2
            fn w kw)
    ∧ (∀ u ∈ (resolve_inputs s i).2,
        (((add_function s (some f) fn i o w iw ow kw).1).dmap.edge? u
          (get_unused_node_id
            ((resolve_outputs (resolve_inputs s i).1 o).1).dmap f)).isSome)
    ∧ (∀ u ∈ (resolve_outputs (resolve_inputs s i).1 o).2,
        (((add_function s (some f) fn i o w iw ow kw).1).dmap.edge?
          (get_unused_node_id
            ((resolve_outputs (resolve_inputs s i).1 o).1).dmap f) u).isSome)
    ∧ (i = none → (resolve_inputs s i).2 = [NId.START]
        ∧ ((add_function s (some f) fn i o w iw ow kw).1).nodeType NId.START
            = some NType.data)
    ∧ (o = none → (resolve_outputs (resolve_inputs s i).1 o).2 = [NId.SINK]
        ∧ ((add_function s (some f) fn i o w iw ow kw).1).nodeType NId.SINK
            = some NType.data) := by
  have hclin : kindClash (resolve_outputs (resolve_inputs s i).1 o).1
      (resolve_inputs s i).2 = false :=
    Bool.eq_false_iff.mpr (fun he => hnc (Or.inl he))
  refine ⟨?_, ?_, ?_, ?_, ?_, ?_⟩
  · rw [add_function_some_id]
    exact add_function_core_ret _ f fn _ _ w iw ow kw hnc
  · rw [add_function_some_id]
    exact add_function_core_fun_node? _ f fn _ _ w iw ow kw hnc
  · intro u hu
    rw [add_function_some_id]
    exact add_function_core_edge_in _ f fn _ _ w iw ow kw hnc u hu
  · intro u hu
    rw [add_function_some_id]
    exact add_function_core_edge_out _ f fn _ _ w iw ow kw hnc u hu
  · intro hi
    subst hi
    refine ⟨resolve_inputs_none_snd s, ?_⟩
    obtain ⟨a, ha⟩ := resolve_inputs_none_start s
    have ha2 := resolve_outputs_node? (resolve_inputs s none).1 o NId.START a ha
    have hmem : NId.START ∈ (resolve_inputs s none).2 := by
      rw [resolve_inputs_none_snd]
      exact List.mem_singleton.mpr rfl
    have hdata : a.ntype = NType.data := by
      apply kindClash_false_data _ _ hclin NId.START hmem
      unfold Dsp.nodeType
      rw [ha2]
      rfl
    rw [add_function_some_id]
    have h3 := add_function_core_node?_preserve
        (resolve_outputs (resolve_inputs s none).1 o).1 f fn
        (resolve_inputs s none).2 (resolve_outputs (resolve_inputs s none).1 o).2
        w iw ow kw NId.START a ha2
    unfold Dsp.nodeType
    rw [h3]
    rw [show Option.map NAttr.ntype (some a) = some a.ntype from rfl, hdata]
  · intro ho
    subst ho
    refine ⟨resolve_outputs_none_snd (resolve_inputs s i).1, ?_⟩
    obtain ⟨a, ha⟩ := resolve_outputs_none_sink (resolve_inputs s i).1
    have hmem : NId.SINK ∈ (resolve_outputs (resolve_inputs s i).1 none).2 := by
      rw [resolve_outputs_none_snd]
      exact List.mem_singleton.mpr rfl
    have hclout : kindClash (resolve_outputs (resolve_inputs s i).1 none).1
        (resolve_outputs (resolve_inputs s i).1 none).2 = false :=
      Bool.eq_false_iff.mpr (fun he => hnc (Or.inr he))
    have hdata : a.ntype = NType.data := by
      apply kindClash_false_data _ _ hclout NId.SINK hmem
      unfold Dsp.nodeType
      rw [ha]
      rfl
    rw [add_function_some_id]
    have h3 := add_function_core_node?_preserve
        (resolve_outputs (resolve_inputs s i).1 none).1 f fn
        (resolve_inputs s i).2 (resolve_outputs (resolve_inputs s i).1 none).2
        w iw ow kw NId.SINK a ha
    unfold Dsp.nodeType
    rw [h3]
    rw [show Option.map NAttr.ntype (some a) = some a.ntype from rfl, hdata]

/-- C8, counterexample to the claim as stated: passing an explicit empty
inputs list (not omitting it) creates a function node with an empty input
list and no incoming edge, so not every function node added by
add_function has at least one input. -/
theorem C8_counterexample :
    (((add_function exDspA (some "f") none (some []) (some [NId.str "a"])).1).node?
        (NId.str "f")).map NAttr.inputs = some (some ( NIO.lst []))
    ∧ ((add_function exDspA (some "f") none
        (some []) (some [NId.str "a"])).1).dmap.inDegree (NId.str "f") = 0
    ∧ (add_function exDspA (some "f") none (some []) (some [NId.str "a"])).2
        = Except.ok (NId.str "f") := by
  refine ⟨?_, ?_, ?_⟩ <;> rfl

theorem C8_start_sink_witness :
    ((add_function exDspA (some "g") none none none).2
        = Except.ok (get_unused_node_id
            ((resolve_outputs (resolve_inputs exDspA none).1 none).1).dmap "g"))
    ∧ ((resolve_inputs exDspA none).2 = [NId.START]
        ∧ ((add_function exDspA (some "g") none none none).1).nodeType NId.START
            = some NType.data) := by
  have h := C8_start_sink exDspA "g" none none none none [] [] {} (by decide)
  exact ⟨h.1, h.2.2.2.2.1 rfl⟩

theorem PyAssoc.get?_upd {α β : Type} [DecidableEq α] (l : List (α × β))
    (k k' : α) (v : β) :
    PyAssoc.get? (PyAssoc.upd l k v) k' = if k' = k then some v else PyAssoc.get? l k' := by
  unfold PyAssoc.get? PyAssoc.upd
  rw [listUpd_find?]
  by_cases h : k' = k <;> simp [h]

theorem PyAssoc.get?_pop {α β : Type} [DecidableEq α] (l : List (α × β)) (k k' : α) :
    PyAssoc.get? (PyAssoc.pop l k) k' = if k' = k then none else PyAssoc.get? l k' := by
  unfold PyAssoc.get? PyAssoc.pop
  induction l with
  | nil => by_cases h : k' = k <;> simp [h]
  | cons hd tl ih =>
    rw [List.filter_cons]
    by_cases hk : hd.1 = k
    · have hcond : (decide ¬ hd.1 = k) = false := by simp [hk]
      rw [hcond]
      simp only [Bool.false_eq_true, if_neg, not_false_iff]
      rw [ih]
      by_cases h2 : k' = k
      · simp [h2]
      · have h3 : ¬ hd.1 = k' := fun he => h2 (he.symm.trans hk)
        simp [List.find?, h3, h2]
    · have hcond : (decide ¬ hd.1 = k) = true := by simp [hk]
      rw [hcond]
      simp only [if_pos]
      by_cases h2 : k' = k
      · have h3 : ¬ hd.1 = k' := fun he => hk (he.trans h2)
        have hc2 : (decide (hd.1 = k')) = false := by simp [h3]
        simp only [List.find?, hc2]
        rw [ih]
      · by_cases h4 : hd.1 = k'
        · have hc2 : (decide (hd.1 = k')) = true := by simp [h4]
          simp only [List.find?, hc2]
          simp [h2]
        · have hc2 : (decide (hd.1 = k')) = false := by simp [h4]
          simp only [List.find?, hc2]
          rw [ih]

/-- C7: set_default_value with a non-sentinel value on a data node id sets
that id's default to exactly the record of the value and initial distance,
leaving every other default and the graph unchanged; with the EMPTY
sentinel it removes any default for the id; and on every id that is not a
data node of the dispatcher it raises ValueError. -/
theorem C7_set_default_value (dsp : Dsp) (d : NId) (v : Val) (dist : Int) :
    (dsp.nodeType d = some NType.data →
      (set_default_value dsp d (some v) dist
          = Except.ok { dsp with
              default_values := PyAssoc.upd dsp.default_values d ⟨v, dist⟩ }
        ∧ PyAssoc.get? (PyAssoc.upd dsp.default_values d (⟨v, dist⟩ : Dfl)) d
            = some ⟨v, dist⟩
        ∧ (∀ k, ¬ k = d →
            PyAssoc.get? (PyAssoc.upd dsp.default_values d (⟨v, dist⟩ : Dfl)) k
              = PyAssoc.get? dsp.default_values k))
      ∧ (set_default_value dsp d none dist
          = Except.ok { dsp with
              default_values := PyAssoc.pop dsp.default_values d }
        ∧ PyAssoc.get? (PyAssoc.pop dsp.default_values d) d = none))
    ∧ (¬ dsp.nodeType d = some NType.data →
        ∀ (vv : Option Val),
          set_default_value dsp d vv dist
            = Except.error "Input error: not a data node") := by
  constructor
  · intro hd
    obtain ⟨a, ha, hat⟩ : ∃ a, dsp.node? d = some a ∧ a.ntype = NType.data := by
      unfold Dsp.nodeType at hd
      cases hx : dsp.node? d with
      | none => rw [hx] at hd; simp at hd
      | some a => rw [hx] at hd; exact ⟨a, rfl, Option.some.inj hd⟩
    refine ⟨⟨?_, ?_, ?_⟩, ⟨?_, ?_⟩⟩
    · unfold set_default_value
      rw [ha]
      simp only [hat, eq_self_iff_true, if_true]
    · rw [PyAssoc.get?_upd, if_pos rfl]
    · intro k hk
      rw [PyAssoc.get?_upd, if_neg hk]
    · unfold set_default_value
      rw [ha]
      simp only [hat, eq_self_iff_true, if_true]
    · rw [PyAssoc.get?_pop, if_pos rfl]
  · intro hd vv
    unfold set_default_value
    cases hx : dsp.node? d with
    | none => rfl
    | some a =>
      have hat : ¬ a.ntype = NType.data := by
        intro he
        apply hd
        unfold Dsp.nodeType
        rw [hx]
        show some a.ntype = some NType.data
        rw [he]
      simp only [if_neg hat]

theorem C7_set_default_value_witness :
    (set_default_value exDspA (NId.str "a") (some (Val.int 7)) 2
        = Except.ok { exDspA with
            default_values := PyAssoc.upd exDspA.default_values (NId.str "a")
              ⟨Val.int 7, 2⟩ })
    ∧ (set_default_value exDspA (NId.str "nope") (some (Val.int 7)) 2
        = Except.error "Input error: not a data node") :=
  ⟨((C7_set_default_value exDspA (NId.str "a") (Val.int 7) 2).1 (by rfl)).1.1,
   (C7_set_default_value exDspA (NId.str "nope") (Val.int 7) 2).2 (by decide)
     (some (Val.int 7))⟩

/-- C9: a Dispatcher constructed without an explicit stopper argument is
bound to the one process-wide class-attribute event; copy_structure hands
the identical stopper object to the copy; hence every dispatcher derived
by any chain of copy_structure calls from a default-constructed one shares
that single event, so setting it cancels them all. -/
theorem C9_shared_stopper :
    (∀ (name : String) (raises : Bool) (dmap : Option Dmap)
        (dfl : List (NId × Dfl)),
        (mkDispatcher name raises dmap dfl none).stopper = classStopper)
    ∧ (∀ (dsp : Dsp) (dmap : Option Dmap),
        (dsp.copy_structure dmap).stopper = dsp.stopper)
    ∧ (∀ (name : String) (raises : Bool) (dmap : Option Dmap)
        (dfl : List (NId × Dfl)) (chain : List (Option Dmap)),
        (copyChain (mkDispatcher name raises dmap dfl none) chain).stopper
          = classStopper) := by
  have hcopy : ∀ (dsp : Dsp) (dmap : Option Dmap),
      (dsp.copy_structure dmap).stopper = dsp.stopper := fun _ _ => rfl
  refine ⟨fun _ _ _ _ => rfl, hcopy, ?_⟩
  intro name raises dmap dfl chain
  have hchain : ∀ (chain : List (Option Dmap)) (s : Dsp),
      (copyChain s chain).stopper = s.stopper := by
    intro chain
    induction chain with
    | nil => intro s; rfl
    | cons hd tl ih =>
      intro s
      show (copyChain (s.copy_structure hd) tl).stopper = s.stopper
      rw [ih, hcopy]
  rw [hchain]
  rfl

/-- C6, counterexample to the claim as stated: in a dispatcher A -> S -> C
where S is a sub-dispatcher node (a function node in the spec's broad
sense), get_sub_dsp over all three nodes with the edge (S, C) removed
retains S although S keeps no outgoing edge, while the claimed result
drops it (and then everything as isolated). -/
theorem C6_counterexample :
    ¬ ((get_sub_dsp exDspP [NId.str "A", NId.str "S", NId.str "C"]
          (some [(NId.str "S", NId.str "C")])).dmap
        = (C6_claimResult exDspP [NId.str "A", NId.str "S", NId.str "C"]
            [(NId.str "S", NId.str "C")]).1
      ∧ (get_sub_dsp exDspP [NId.str "A", NId.str "S", NId.str "C"]
          (some [(NId.str "S", NId.str "C")])).default_values
        = (C6_claimResult exDspP [NId.str "A", NId.str "S", NId.str "C"]
            [(NId.str "S", NId.str "C")]).2) := by
  decide

theorem node?_removeNode_ne (g : Dmap) (u k : NId) (h : ¬ k = u) :
    (g.removeNode u).node? k = g.node? k := by
  unfold Dmap.removeNode Dmap.node?
  induction g.nodes with
  | nil => rfl
  | cons hd tl ih =>
    rw [List.filter_cons]
    by_cases hu : hd.1 = u
    · have hc : (decide (¬ hd.1 = u)) = false := by simp [hu]
      rw [hc]
      simp only [Bool.false_eq_true, if_neg, not_false_iff]
      have hk : (decide (hd.1 = k)) = false := by
        simp only [decide_eq_false_iff_not]
        intro he
        exact h (he.symm.trans hu)
      rw [ih]
      simp only [List.find?, hk]
    · have hc : (decide (¬ hd.1 = u)) = true := by simp [hu]
      rw [hc]
      simp only [if_pos]
      by_cases hk : hd.1 = k
      · have hkc : (decide (hd.1 = k)) = true := by simp [hk]
        simp only [List.find?, hkc]
      · have hkc : (decide (hd.1 = k)) = false := by simp [hk]
        simp only [List.find?, hkc]
        exact ih

theorem removeNode_eq_removeManyD (g : Dmap) (u : NId) :
    g.removeNode u = removeManyD g [u] := by
  unfold Dmap.removeNode removeManyD
  rw [Dmap.mk.injEq]
  constructor <;> simp

theorem removeManyD_append (g : Dmap) (S1 S2 : List NId) :
    removeManyD (removeManyD g S1) S2 = removeManyD g (S1 ++ S2) := by
  unfold removeManyD
  simp only [List.filter_filter]
  rw [Dmap.mk.injEq]
  constructor
  · apply List.filter_congr
    intro p _
    simp only [List.mem_append, decide_not]
    cases h1 : decide (p.1 ∈ S1) <;> cases h2 : decide (p.1 ∈ S2) <;>
      simp_all
  · apply List.filter_congr
    intro e _
    simp only [List.mem_append, decide_not]
    cases h1 : decide (e.1.1 ∈ S1) <;> cases h2 : decide (e.1.1 ∈ S2) <;>
      cases h3 : decide (e.1.2 ∈ S1) <;> cases h4 : decide (e.1.2 ∈ S2) <;>
      simp_all

theorem removeManyD_congr (g : Dmap) (S1 S2 : List NId)
    (h : ∀ x, x ∈ S1 ↔ x ∈ S2) :
    removeManyD g S1 = removeManyD g S2 := by
  unfold removeManyD
  rw [Dmap.mk.injEq]
  constructor
  · apply List.filter_congr
    intro p _
    simp [h]
  · apply List.filter_congr
    intro e _
    simp [h]

theorem fold_remove_pred (P : Option NAttr → Bool) :
    ∀ (todo : List NId) (g : Dmap), todo.Nodup →
      todo.foldl (fun (g : Dmap) u => if P (g.node? u) then g.removeNode u else g) g
        = removeManyD g (todo.filter (fun u => P (g.node? u))) := by
  intro todo
  induction todo with
  | nil =>
    intro g _
    show g = removeManyD g []
    unfold removeManyD
    rw [Dmap.mk.injEq]
    constructor <;> simp
  | cons u rest ih =>
    intro g hnd
    have hu := (List.nodup_cons.mp hnd).1
    have hnd2 := (List.nodup_cons.mp hnd).2
    rw [List.foldl_cons, List.filter_cons]
    by_cases hP : P (g.node? u)
    · rw [if_pos hP, hP]
      simp only [if_pos]
      rw [ih (g.removeNode u) hnd2]
      have hfil : rest.filter (fun v => P ((g.removeNode u).node? v))
          = rest.filter (fun v => P (g.node? v)) := by
        apply List.filter_congr
        intro v hv
        rw [node?_removeNode_ne g u v (fun he => hu (he ▸ hv))]
      rw [hfil, removeNode_eq_removeManyD, removeManyD_append]
      rfl
    · have hPc : P (g.node? u) = false := Bool.eq_false_iff.mpr hP
      rw [if_neg hP, hPc]
      simp only [Bool.false_eq_true, if_neg, not_false_iff]
      exact ih g hnd2

theorem fold_removeEdge : ∀ (E : List (NId × NId)) (g : Dmap),
    E.foldl (fun (g : Dmap) (e : NId × NId) => g.removeEdge e.1 e.2) g
      = { g with edges := g.edges.filter (fun e => decide (¬ e.1 ∈ E)) } := by
  intro E
  induction E with
  | nil =>
    intro g
    show g = _
    rw [Dmap.mk.injEq]
    constructor
    · rfl
    · simp
  | cons e rest ih =>
    intro g
    rw [List.foldl_cons, ih]
    unfold Dmap.removeEdge
    rw [Dmap.mk.injEq]
    constructor
    · rfl
    · show (g.edges.filter (fun x => decide (¬ x.1 = (e.1, e.2)))).filter
          (fun x => decide (¬ x.1 ∈ rest)) = _
      rw [List.filter_filter]
      apply List.filter_congr
      intro x _
      simp only [List.mem_cons, decide_not]
      cases h1 : decide (x.1 = (e.1, e.2)) <;> cases h2 : decide (x.1 ∈ rest) <;>
        simp_all

theorem fold_removeNode : ∀ (L : List NId) (g : Dmap),
    L.foldl (fun (g : Dmap) u => g.removeNode u) g = removeManyD g L := by
  intro L
  induction L with
  | nil =>
    intro g
    show g = removeManyD g []
    unfold removeManyD
    rw [Dmap.mk.injEq]
    constructor <;> simp
  | cons u rest ih =>
    intro g
    rw [List.foldl_cons, ih, removeNode_eq_removeManyD, removeManyD_append]
    rfl

theorem outDegree_removeManyD (g : Dmap) (S : List NId) (v : NId)
    (hv : ¬ v ∈ S)
    (hvf : (g.node? v).map NAttr.ntype = some NType.function)
    (hS : ∀ u ∈ S, (g.node? u).map NAttr.ntype = some NType.function)
    (hff : ∀ e ∈ g.edges, (g.node? e.1.1).map NAttr.ntype = some NType.data
        ∨ (g.node? e.1.2).map NAttr.ntype = some NType.data) :
    (removeManyD g S).outDegree v = g.outDegree v := by
  unfold Dmap.outDegree removeManyD
  simp only [List.filter_filter]
  have hkeep : ∀ e ∈ g.edges.filter (fun e => decide (e.1.1 = v)),
      (decide (¬ e.1.1 ∈ S) && decide (¬ e.1.2 ∈ S)) = true := by
    intro e he
    have hmem := List.mem_of_mem_filter he
    have hcond := List.of_mem_filter he
    simp only [decide_eq_true_eq] at hcond
    have h1 : ¬ e.1.1 ∈ S := by
      rw [hcond]
      exact hv
    have h2 : ¬ e.1.2 ∈ S := by
      intro hys
      have hy := hS e.1.2 hys
      rcases hff e hmem with hl | hr
      · rw [hcond] at hl
        rw [hvf] at hl
        exact absurd (Option.some.inj hl) (by intro hx; cases hx)
      · rw [hy] at hr
        exact absurd (Option.some.inj hr) (by intro hx; cases hx)
    simp [h1, h2]
  have hcomm : List.filter (fun (a : (NId × NId) × Option Int) =>
        decide (a.1.1 = v) && (decide (¬ a.1.1 ∈ S) && decide (¬ a.1.2 ∈ S)))
        g.edges
      = List.filter (fun (a : (NId × NId) × Option Int) =>
        (decide (¬ a.1.1 ∈ S) && decide (¬ a.1.2 ∈ S)) && decide (a.1.1 = v))
        g.edges := by
    apply List.filter_congr
    intro e _
    exact Bool.and_comm _ _
  rw [hcomm,
    ← List.filter_filter (fun (e : (NId × NId) × Option Int) => decide (e.1.1 = v))
      g.edges,
    List.filter_eq_self.mpr hkeep]

theorem fold_outdeg (g2 : Dmap)
    (hff : ∀ e ∈ g2.edges, (g2.node? e.1.1).map NAttr.ntype = some NType.data
        ∨ (g2.node? e.1.2).map NAttr.ntype = some NType.data) :
    ∀ (todo S : List NId), todo.Nodup →
      (∀ u ∈ todo, ¬ u ∈ S) →
      (∀ u ∈ todo, (g2.node? u).map NAttr.ntype = some NType.function) →
      (∀ u ∈ S, (g2.node? u).map NAttr.ntype = some NType.function) →
      todo.foldl (fun (g : Dmap) u => if g.outDegree u = 0 then g.removeNode u else g)
        (removeManyD g2 S)
      = removeManyD g2 (S ++ todo.filter (fun u => g2.outDegree u = 0)) := by
  intro todo
  induction todo with
  | nil =>
    intro S _ _ _ _
    simp
  | cons u rest ih =>
    intro S hnd hdisj htf hSf
    have hu := (List.nodup_cons.mp hnd).1
    have hnd2 := (List.nodup_cons.mp hnd).2
    have hud := outDegree_removeManyD g2 S u (hdisj u (List.mem_cons_self u rest))
      (htf u (List.mem_cons_self u rest)) hSf hff
    rw [List.foldl_cons, List.filter_cons]
    by_cases hz : g2.outDegree u = 0
    · have hzc : (decide (g2.outDegree u = 0)) = true := by simp [hz]
      rw [hzc]
      simp only [if_pos]
      have hcond : (removeManyD g2 S).outDegree u = 0 := by rw [hud]; exact hz
      rw [if_pos hcond, removeNode_eq_removeManyD, removeManyD_append]
      have hres := ih (S ++ [u]) hnd2
        (by
          intro v hv
          rw [List.mem_append]
          rintro (h1 | h2)
          · exact hdisj v (List.mem_cons_of_mem u hv) h1
          · exact hu (by rwa [List.mem_singleton.mp h2] at hv))
        (fun v hv => htf v (List.mem_cons_of_mem u hv))
        (by
          intro v hv
          rcases List.mem_append.mp hv with h1 | h2
          · exact hSf v h1
          · rw [List.mem_singleton.mp h2]
            exact htf u (List.mem_cons_self u rest))
      rw [hres, List.append_assoc]
      rfl
    · have hzc : (decide (g2.outDegree u = 0)) = false := by simp [hz]
      rw [hzc]
      simp only [Bool.false_eq_true, if_neg, not_false_iff]
      have hcond : ¬ (removeManyD g2 S).outDegree u = 0 := by rw [hud]; exact hz
      rw [if_neg hcond]
      exact ih S hnd2 (fun v hv => hdisj v (List.mem_cons_of_mem u hv))
        (fun v hv => htf v (List.mem_cons_of_mem u hv)) hSf

theorem subgraph_keys (g : Dmap) (N : List NId) :
    (subgraphD g N).nodes.map Prod.fst = N.filter (fun k => g.has_node k) := by
  show (N.filterMap (fun k => (g.node? k).map (fun a => (k, a)))).map Prod.fst = _
  induction N with
  | nil => rfl
  | cons k rest ih =>
    rw [List.filterMap_cons, List.filter_cons]
    cases hk : g.node? k with
    | none =>
      have hc : (g.has_node k) = false := by
        unfold Dmap.has_node
        rw [hk]
        rfl
      rw [hc]
      simp only [Bool.false_eq_true, if_neg, not_false_iff, Option.map_none]
      exact ih
    | some a =>
      have hc : (g.has_node k) = true := by
        unfold Dmap.has_node
        rw [hk]
        rfl
      rw [hc]
      simp only [if_pos, Option.map_some]
      show ((k, a) :: rest.filterMap
          (fun k => (g.node? k).map (fun a => (k, a)))).map Prod.fst
        = k :: rest.filter (fun k => g.has_node k)
      rw [List.map_cons, ih]

theorem mem_subgraph_node (g : Dmap) (N : List NId) (k : NId) (a : NAttr)
    (h : (k, a) ∈ (subgraphD g N).nodes) : g.node? k = some a := by
  have h2 : (k, a) ∈ N.filterMap (fun k => (g.node? k).map (fun a => (k, a))) := h
  rw [List.mem_filterMap] at h2
  obtain ⟨x, _, hx⟩ := h2
  cases hw : g.node? x with
  | none =>
    rw [hw] at hx
    exact absurd hx (by simp)
  | some b =>
    rw [hw] at hx
    have hx2 : (x, b) = (k, a) := Option.some.inj hx
    have hk : x = k := congrArg Prod.fst hx2
    have hb : b = a := congrArg Prod.snd hx2
    rw [← hk, hw, hb]

theorem find?_nodup (l : List (NId × NAttr)) (hnd : (l.map Prod.fst).Nodup)
    (k : NId) (a : NAttr) (h : (k, a) ∈ l) :
    l.find? (fun p => p.1 = k) = some (k, a) := by
  induction l with
  | nil => simp at h
  | cons hd tl ih =>
    rcases List.mem_cons.mp h with he | hm
    · rw [← he]
      simp [List.find?]
    · have hk : ¬ hd.1 = k := by
        intro he2
        have hmem : hd.1 ∈ tl.map Prod.fst := by
          rw [he2]
          exact List.mem_map.mpr ⟨(k, a), hm, rfl⟩
        rw [List.map_cons] at hnd
        exact (List.nodup_cons.mp hnd).1 hmem
      have hkc : (decide (hd.1 = k)) = false := by simp [hk]
      simp only [List.find?, hkc]
      exact ih (by rw [List.map_cons] at hnd; exact (List.nodup_cons.mp hnd).2) hm

theorem mem_nodup_node? (g : Dmap) (hnd : (g.nodes.map Prod.fst).Nodup)
    (k : NId) (a : NAttr) (h : (k, a) ∈ g.nodes) : g.node? k = some a := by
  unfold Dmap.node?
  rw [find?_nodup g.nodes hnd k a h]
  rfl

theorem removeManyD_nil (g : Dmap) : removeManyD g [] = g := by
  unfold removeManyD
  rw [Dmap.mk.injEq]
  constructor <;> simp

theorem removeMany_edgefilter_comm (A : Dmap) (D : List NId) (E : List (NId × NId)) :
    ({ removeManyD A D with
        edges := (removeManyD A D).edges.filter (fun e => decide (¬ e.1 ∈ E)) } : Dmap)
      = removeManyD
          ({ A with edges := A.edges.filter (fun e => decide (¬ e.1 ∈ E)) } : Dmap) D := by
  unfold removeManyD
  rw [Dmap.mk.injEq]
  constructor
  · rfl
  · show ((A.edges.filter _).filter _) = ((A.edges.filter _).filter _)
    rw [List.filter_filter, List.filter_filter]
    apply List.filter_congr
    intro e _
    cases h1 : decide (¬ e.1.1 ∈ D) <;> cases h2 : decide (¬ e.1.2 ∈ D) <;>
      cases h3 : decide (¬ e.1 ∈ E) <;> simp_all

theorem fold_outdeg_nil (g2 : Dmap)
    (hff : ∀ e ∈ g2.edges, (g2.node? e.1.1).map NAttr.ntype = some NType.data
        ∨ (g2.node? e.1.2).map NAttr.ntype = some NType.data)
    (todo : List NId) (hnd : todo.Nodup)
    (htf : ∀ u ∈ todo, (g2.node? u).map NAttr.ntype = some NType.function) :
    todo.foldl (fun (g : Dmap) u => if g.outDegree u = 0 then g.removeNode u else g) g2
      = removeManyD g2 (todo.filter (fun u => g2.outDegree u = 0)) := by
  have h := fold_outdeg g2 hff todo [] hnd (by simp) htf (by simp)
  rw [removeManyD_nil, List.nil_append] at h
  exact h

theorem node?_mem (g : Dmap) (k : NId) (a : NAttr) (h : g.node? k = some a) :
    (k, a) ∈ g.nodes := by
  unfold Dmap.node? at h
  cases hf : g.nodes.find? (fun p => p.1 = k) with
  | none =>
    rw [hf] at h
    exact absurd h (by simp)
  | some p =>
    rw [hf] at h
    have hp2 : p.2 = a := Option.some.inj h
    have hpred := List.find?_some hf
    have hp1 : p.1 = k := of_decide_eq_true hpred
    have hmem := List.mem_of_find?_eq_some hf
    have hpk : (k, a) = p := by
      rw [← hp1, ← hp2]
    rw [hpk]
    exact hmem

theorem stage12 (A : Dmap) (N : List NId) (E : List (NId × NId))
    (hnodup : N.Nodup) :
    E.foldl (fun (g : Dmap) (e : NId × NId) => g.removeEdge e.1 e.2)
      (N.foldl (fun (g : Dmap) u =>
        if pass1Drop N (g.node? u) then g.removeNode u else g) A)
    = removeManyD
        ({ A with edges := A.edges.filter (fun e => decide (¬ e.1 ∈ E)) } : Dmap)
        (N.filter (fun u => pass1Drop N
          (({ A with
              edges := A.edges.filter (fun e => decide (¬ e.1 ∈ E)) } : Dmap).node?
            u))) := by
  rw [fold_remove_pred (pass1Drop N) N A hnodup, fold_removeEdge E,
    removeMany_edgefilter_comm]
  rfl

theorem stage34 (G : Dmap)
    (hnd : (G.nodes.map Prod.fst).Nodup)
    (hff : ∀ e ∈ G.edges, (G.node? e.1.1).map NAttr.ntype = some NType.data
        ∨ (G.node? e.1.2).map NAttr.ntype = some NType.data) :
    ((((G.nodes.filter (fun (p : NId × NAttr) =>
          decide (p.2.ntype = NType.function))).map Prod.fst).foldl
        (fun (g : Dmap) u => if g.outDegree u = 0 then g.removeNode u else g)
        G).isolatesL).foldl (fun (g : Dmap) u => g.removeNode u)
      (((G.nodes.filter (fun (p : NId × NAttr) =>
          decide (p.2.ntype = NType.function))).map Prod.fst).foldl
        (fun (g : Dmap) u => if g.outDegree u = 0 then g.removeNode u else g)
        G)
    = removeManyD
        (removeManyD G ((G.nodes.filter (fun (p : NId × NAttr) =>
            decide (p.2.ntype = NType.function)
              && (G.outDegree p.1 = 0))).map Prod.fst))
        (removeManyD G ((G.nodes.filter (fun (p : NId × NAttr) =>
            decide (p.2.ntype = NType.function)
              && (G.outDegree p.1 = 0))).map Prod.fst)).isolatesL := by
  have hfnd : ((G.nodes.filter (fun (p : NId × NAttr) =>
      decide (p.2.ntype = NType.function))).map Prod.fst).Nodup :=
    List.Nodup.sublist (List.Sublist.map Prod.fst (List.filter_sublist G.nodes)) hnd
  have htf : ∀ u ∈ (G.nodes.filter (fun (p : NId × NAttr) =>
      decide (p.2.ntype = NType.function))).map Prod.fst,
      (G.node? u).map NAttr.ntype = some NType.function := by
    intro u hu
    obtain ⟨p, hp, hpe⟩ := List.mem_map.mp hu
    have htyb := List.of_mem_filter hp
    have hty : p.2.ntype = NType.function := of_decide_eq_true htyb
    have hn : G.node? p.1 = some p.2 :=
      mem_nodup_node? G hnd p.1 p.2
        (by rw [Prod.mk.eta]; exact List.mem_of_mem_filter hp)
    rw [← hpe, hn]
    show some p.2.ntype = some NType.function
    rw [hty]
  rw [fold_outdeg_nil G hff _ hfnd htf, fold_removeNode]
  have hmm : ∀ x, x ∈ ((G.nodes.filter (fun (p : NId × NAttr) =>
        decide (p.2.ntype = NType.function))).map Prod.fst).filter
        (fun u => decide (G.outDegree u = 0))
      ↔ x ∈ (G.nodes.filter (fun (p : NId × NAttr) =>
          decide (p.2.ntype = NType.function)
            && (G.outDegree p.1 = 0))).map Prod.fst := by
    intro x
    constructor
    · intro hx
      have hxd := List.of_mem_filter hx
      obtain ⟨p, hp, hpe⟩ := List.mem_map.mp (List.mem_of_mem_filter hx)
      refine List.mem_map.mpr ⟨p, List.mem_filter.mpr
        ⟨List.mem_of_mem_filter hp, ?hcnd⟩, hpe⟩
      rw [List.of_mem_filter hp, Bool.true_and, hpe]
      exact hxd
    · intro hx
      obtain ⟨p, hp, hpe⟩ := List.mem_map.mp hx
      have hc := List.of_mem_filter hp
      rw [Bool.and_eq_true] at hc
      refine List.mem_filter.mpr ⟨List.mem_map.mpr ⟨p, List.mem_filter.mpr
        ⟨List.mem_of_mem_filter hp, hc.1⟩, hpe⟩, ?hdeg⟩
      rw [← hpe]
      exact hc.2
  rw [removeManyD_congr _ _ _ hmm]

/-- C6: what get_sub_dsp really returns, stated declaratively.  For a
dispatcher whose edges always touch a data node (invariant of the
builders), a duplicate-free node bunch N of existing nodes and a
duplicate-free edge bunch E of edges present after the first pass
(Python raises otherwise), get_sub_dsp computes exactly: the induced
subgraph on N minus the edges of E, minus the nodes whose `inputs`
attribute is not contained in N, minus the strictly function-typed
nodes without outgoing edges (sub-dispatcher nodes are retained),
minus the isolates; defaults restricted to the survivors. -/
theorem C6_sub_dsp_amended (dsp : Dsp) (N : List NId) (E : List (NId × NId))
    (hnodup : N.Nodup)
    (hff : ∀ e ∈ dsp.dmap.edges,
        (dsp.dmap.node? e.1.1).map NAttr.ntype = some NType.data
        ∨ (dsp.dmap.node? e.1.2).map NAttr.ntype = some NType.data)
    (_hbound : ∀ u ∈ N, dsp.dmap.has_node u = true)
    (_hE1 : E.Nodup)
    (_hE2 : ∀ e ∈ E, ((N.foldl (fun (g : Dmap) u =>
        if pass1Drop N (g.node? u) then g.removeNode u else g)
        (subgraphD dsp.dmap N)).edge? e.1 e.2).isSome = true) :
    (get_sub_dsp dsp N (some E)).dmap = (C6_amendedResult dsp N E).1
    ∧ (get_sub_dsp dsp N (some E)).default_values
        = (C6_amendedResult dsp N E).2 := by
  unfold get_sub_dsp C6_amendedResult
  dsimp only
  rw [show (dsp.copy_structure (some (subgraphD dsp.dmap N))).dmap
      = subgraphD dsp.dmap N from rfl]
  rw [stage12 (subgraphD dsp.dmap N) N E hnodup]
  set A := subgraphD dsp.dmap N with hA
  set gE : Dmap :=
    { A with edges := A.edges.filter (fun e => decide (¬ e.1 ∈ E)) } with hgE
  set D1 := N.filter (fun u => pass1Drop N (gE.node? u)) with hD1
  set G := removeManyD gE D1 with hG
  have hndA : (A.nodes.map Prod.fst).Nodup := by
    rw [hA, subgraph_keys]
    exact hnodup.filter _
  have hndG : (G.nodes.map Prod.fst).Nodup := by
    have hsub : G.nodes.Sublist A.nodes := by
      rw [hG, hgE]
      exact List.filter_sublist _
    exact List.Nodup.sublist (List.Sublist.map Prod.fst hsub) hndA
  have hAnode : ∀ (k : NId) (a : NAttr), k ∈ N → dsp.dmap.node? k = some a →
      A.node? k = some a := by
    intro k a hk hw
    apply mem_nodup_node? A hndA
    rw [hA]
    exact List.mem_filterMap.mpr ⟨k, hk, by simp [hw]⟩
  have hGnode : ∀ (k : NId) (a : NAttr), A.node? k = some a → ¬ k ∈ D1 →
      G.node? k = some a := by
    intro k a hw hk
    apply mem_nodup_node? G hndG
    have hmem : (k, a) ∈ A.nodes := node?_mem A k a hw
    rw [hG, hgE]
    exact List.mem_filter.mpr ⟨hmem, by simp [hk]⟩
  have hGedge : ∀ e, e ∈ G.edges → e ∈ dsp.dmap.edges ∧ e.1.1 ∈ N ∧ e.1.2 ∈ N
      ∧ ¬ e.1.1 ∈ D1 ∧ ¬ e.1.2 ∈ D1 := by
    intro e he
    rw [hG, hgE] at he
    have he2 : e ∈ (A.edges.filter (fun e => decide (¬ e.1 ∈ E))).filter
        (fun e => decide (¬ e.1.1 ∈ D1) && decide (¬ e.1.2 ∈ D1)) := he
    have hc2 := List.of_mem_filter he2
    rw [Bool.and_eq_true] at hc2
    have he3 := List.mem_of_mem_filter he2
    have he4 : e ∈ A.edges := List.mem_of_mem_filter he3
    rw [hA] at he4
    have he5 : e ∈ dsp.dmap.edges.filter (fun e =>
        decide (e.1.1 ∈ N) && decide (e.1.2 ∈ N)) := he4
    have hcN := List.of_mem_filter he5
    rw [Bool.and_eq_true] at hcN
    exact ⟨List.mem_of_mem_filter he5, of_decide_eq_true hcN.1,
      of_decide_eq_true hcN.2, of_decide_eq_true hc2.1, of_decide_eq_true hc2.2⟩
  have hffG : ∀ e ∈ G.edges,
      (G.node? e.1.1).map NAttr.ntype = some NType.data
      ∨ (G.node? e.1.2).map NAttr.ntype = some NType.data := by
    intro e he
    obtain ⟨hed, hN1, hN2, hd1, hd2⟩ := hGedge e he
    rcases hff e hed with hl | hr
    · left
      cases hw : dsp.dmap.node? e.1.1 with
      | none =>
        rw [hw] at hl
        exact absurd hl (by simp)
      | some a =>
        rw [hw] at hl
        have ha : a.ntype = NType.data := Option.some.inj hl
        rw [hGnode e.1.1 a (hAnode e.1.1 a hN1 hw) hd1]
        show some a.ntype = some NType.data
        rw [ha]
    · right
      cases hw : dsp.dmap.node? e.1.2 with
      | none =>
        rw [hw] at hr
        exact absurd hr (by simp)
      | some a =>
        rw [hw] at hr
        have ha : a.ntype = NType.data := Option.some.inj hr
        rw [hGnode e.1.2 a (hAnode e.1.2 a hN2 hw) hd2]
        show some a.ntype = some NType.data
        rw [ha]
  rw [stage34 G hndG hffG]
  exact ⟨rfl, rfl⟩

theorem C6_sub_dsp_amended_witness :
    ([NId.str "A", NId.str "S", NId.str "C"] : List NId).Nodup
    ∧ ((get_sub_dsp exDspP [NId.str "A", NId.str "S", NId.str "C"]
          (some [(NId.str "S", NId.str "C")])).dmap
        = (C6_amendedResult exDspP [NId.str "A", NId.str "S", NId.str "C"]
            [(NId.str "S", NId.str "C")]).1
      ∧ (get_sub_dsp exDspP [NId.str "A", NId.str "S", NId.str "C"]
          (some [(NId.str "S", NId.str "C")])).default_values
        = (C6_amendedResult exDspP [NId.str "A", NId.str "S", NId.str "C"]
            [(NId.str "S", NId.str "C")]).2) :=
  ⟨by decide, C6_sub_dsp_amended exDspP [NId.str "A", NId.str "S", NId.str "C"]
    [(NId.str "S", NId.str "C")] (by decide) (by decide) (by decide) (by decide)
    (by decide)⟩

theorem lookups_ok (d : List (NId × Val)) (keys : List NId)
    (h : ∀ k ∈ keys, (PyAssoc.get? d k).isSome = true) :
    lookups d keys = Except.ok (keys.map (fun k =>
      (PyAssoc.get? d k).getD Val.noneTok)) := by
  induction keys with
  | nil => rfl
  | cons k rest ih =>
    have hk := h k (List.mem_cons_self k rest)
    cases hg : PyAssoc.get? d k with
    | none =>
      rw [hg] at hk
      exact absurd hk (by simp)
    | some v =>
      unfold lookups
      rw [hg, ih (fun k2 hk2 => h k2 (List.mem_cons_of_mem k hk2)),
        List.map_cons, hg]
      rfl

theorem lookups_err (d : List (NId × Val)) (keys : List NId)
    (h : ∃ k ∈ keys, PyAssoc.get? d k = none) :
    ∃ s, lookups d keys = Except.error s := by
  induction keys with
  | nil =>
    obtain ⟨k, hk, _⟩ := h
    exact absurd hk (List.not_mem_nil k)
  | cons k rest ih =>
    cases hg : PyAssoc.get? d k with
    | none =>
      refine ⟨"KeyError", ?he⟩
      unfold lookups
      rw [hg]
    | some v =>
      obtain ⟨k2, hk2, hn⟩ := h
      rcases List.mem_cons.mp hk2 with he | hm
      · rw [he, hg] at hn
        exact absurd hn (by simp)
      · obtain ⟨s, hs⟩ := ih ⟨k2, hm, hn⟩
        refine ⟨s, ?he2⟩
        unfold lookups
        rw [hg, hs]
        rfl

theorem dictCompGo_ok (d : List (NId × Val)) (keys : List NId) :
    ∀ acc, (∀ k ∈ keys, (PyAssoc.get? d k).isSome = true) →
    dictCompGo d acc keys = Except.ok (keys.foldl (fun acc k =>
      listUpd acc k ((PyAssoc.get? d k).getD Val.noneTok)) acc) := by
  induction keys with
  | nil =>
    intro acc _
    rfl
  | cons k rest ih =>
    intro acc h
    have hk := h k (List.mem_cons_self k rest)
    cases hg : PyAssoc.get? d k with
    | none =>
      rw [hg] at hk
      exact absurd hk (by simp)
    | some v =>
      unfold dictCompGo
      rw [hg]
      show dictCompGo d (listUpd acc k v) rest = _
      rw [ih (listUpd acc k v) (fun k2 hk2 => h k2 (List.mem_cons_of_mem k hk2)),
        List.foldl_cons, hg]
      rfl

theorem dictCompGo_err (d : List (NId × Val)) (keys : List NId) :
    ∀ acc, (∃ k ∈ keys, PyAssoc.get? d k = none) →
    ∃ s, dictCompGo d acc keys = Except.error s := by
  induction keys with
  | nil =>
    intro acc h
    obtain ⟨k, hk, _⟩ := h
    exact absurd hk (List.not_mem_nil k)
  | cons k rest ih =>
    intro acc h
    cases hg : PyAssoc.get? d k with
    | none =>
      refine ⟨"KeyError", ?he⟩
      unfold dictCompGo
      rw [hg]
    | some v =>
      obtain ⟨k2, hk2, hn⟩ := h
      rcases List.mem_cons.mp hk2 with he | hm
      · rw [he, hg] at hn
        exact absurd hn (by simp)
      · obtain ⟨s, hs⟩ := ih (listUpd acc k v) ⟨k2, hm, hn⟩
        refine ⟨s, ?he2⟩
        unfold dictCompGo
        rw [hg]
        show dictCompGo d (listUpd acc k v) rest = _
        rw [hs]

theorem mem_insertSorted (x y : NId) (l : List NId) :
    x ∈ insertSorted y l ↔ x = y ∨ x ∈ l := by
  induction l with
  | nil => simp [insertSorted]
  | cons z zs ih =>
    unfold insertSorted
    by_cases h : NId.key y ≤ NId.key z
    · simp [h]
    · have hc : (decide (NId.key y ≤ NId.key z)) = false := by simp [h]
      rw [hc]
      simp only [Bool.false_eq_true, if_neg, not_false_iff, List.mem_cons, ih]
      tauto

theorem mem_sortIds (x : NId) (l : List NId) : x ∈ sortIds l ↔ x ∈ l := by
  induction l with
  | nil => simp [sortIds]
  | cons y ys ih =>
    rw [show sortIds (y :: ys) = insertSorted y (sortIds ys) from rfl,
      mem_insertSorted]
    simp [ih]

/-- C4, counterexample to the claim as stated: with output_type 'all' a
SubDispatch call returns the whole solution even when a declared output
id is absent from it - it never raises DispatcherError, contradicting
"whenever at least one named output id is absent from the resulting
solution, the call raises DispatcherError". -/
theorem C4_counterexample :
    ¬ (∀ (outs : List NId) (ot : OutType)
        (run : List (NId × Val) → List (NId × Val))
        (ds : List (List (NId × Val))),
        (∃ k ∈ outs, PyAssoc.get? (run (combine_dicts ds)) k = none) →
        SubDispatch_call ⟨some outs, ot⟩ run ds
          = Except.error (SDFail.dispatcherError (run (combine_dicts ds)))) := by
  intro h
  have h2 := h [NId.str "x"] OutType.all
    (fun _ => ([] : List (NId × Val))) []
    ⟨NId.str "x", List.mem_singleton.mpr rfl, rfl⟩
  exact Except.noConfusion h2

/-- C4: what SubDispatch.__call__ actually does, over an arbitrary
dispatch engine `run`: it always dispatches on the merge of its input
dicts; with output_type 'all' it returns the whole solution (no check of
the declared outputs at all); with any other output type it raises
DispatcherError carrying the partial solution when some declared output
is absent, and otherwise returns the outputs in declared order as a
list, as a restricted dict, or bypassed (a single scalar for a single
declared output) for 'values'. -/
theorem C4_sub_dispatch (outs : List NId) (ot : OutType)
    (run : List (NId × Val) → List (NId × Val))
    (ds : List (List (NId × Val))) :
    (ot = OutType.all →
      SubDispatch_call ⟨some outs, ot⟩ run ds
        = Except.ok (PyRet.dict (run (combine_dicts ds))))
    ∧ (¬ ot = OutType.all →
      ((∃ k ∈ outs, PyAssoc.get? (run (combine_dicts ds)) k = none) →
        SubDispatch_call ⟨some outs, ot⟩ run ds
          = Except.error (SDFail.dispatcherError (run (combine_dicts ds))))
      ∧ ((∀ k ∈ outs, (PyAssoc.get? (run (combine_dicts ds)) k).isSome = true) →
        (ot = OutType.lst →
          SubDispatch_call ⟨some outs, ot⟩ run ds
            = Except.ok (PyRet.list (outs.map (fun k =>
                (PyAssoc.get? (run (combine_dicts ds)) k).getD Val.noneTok))))
        ∧ (ot = OutType.dct →
          SubDispatch_call ⟨some outs, ot⟩ run ds
            = Except.ok (PyRet.dict (outs.foldl (fun acc k =>
                listUpd acc k ((PyAssoc.get? (run (combine_dicts ds)) k).getD
                  Val.noneTok)) [])))
        ∧ (ot = OutType.values →
          SubDispatch_call ⟨some outs, ot⟩ run ds
            = Except.ok (bypassVals (outs.map (fun k =>
                (PyAssoc.get? (run (combine_dicts ds)) k).getD
                  Val.noneTok)))))) := by
  refine ⟨?hall, ?hrest⟩
  · intro h
    subst h
    rfl
  · intro hne
    constructor
    · intro hex
      cases ot with
      | all => exact absurd rfl hne
      | lst =>
        obtain ⟨s, hs⟩ := lookups_err (run (combine_dicts ds)) outs hex
        show (match selector outs (run (combine_dicts ds)) OutType.lst with
          | Except.ok r => Except.ok r
          | Except.error _ => Except.error
              (SDFail.dispatcherError (run (combine_dicts ds)))) = _
        rw [show selector outs (run (combine_dicts ds)) OutType.lst
          = (lookups (run (combine_dicts ds)) outs).map PyRet.list from rfl, hs]
        rfl
      | values =>
        obtain ⟨s, hs⟩ := lookups_err (run (combine_dicts ds)) outs hex
        show (match selector outs (run (combine_dicts ds)) OutType.values with
          | Except.ok r => Except.ok r
          | Except.error _ => Except.error
              (SDFail.dispatcherError (run (combine_dicts ds)))) = _
        rw [show selector outs (run (combine_dicts ds)) OutType.values
          = (lookups (run (combine_dicts ds)) outs).map bypassVals from rfl, hs]
        rfl
      | dct =>
        obtain ⟨s, hs⟩ := dictCompGo_err (run (combine_dicts ds)) outs [] hex
        show (match selector outs (run (combine_dicts ds)) OutType.dct with
          | Except.ok r => Except.ok r
          | Except.error _ => Except.error
              (SDFail.dispatcherError (run (combine_dicts ds)))) = _
        rw [show selector outs (run (combine_dicts ds)) OutType.dct
          = (dictCompGo (run (combine_dicts ds)) [] outs).map PyRet.dict from rfl,
          hs]
        rfl
    · intro hsome
      refine ⟨?hlst, ?hdct, ?hvals⟩
      · intro h
        subst h
        show (match selector outs (run (combine_dicts ds)) OutType.lst with
          | Except.ok r => Except.ok r
          | Except.error _ => Except.error
              (SDFail.dispatcherError (run (combine_dicts ds)))) = _
        rw [show selector outs (run (combine_dicts ds)) OutType.lst
          = (lookups (run (combine_dicts ds)) outs).map PyRet.list from rfl,
          lookups_ok (run (combine_dicts ds)) outs hsome]
        rfl
      · intro h
        subst h
        show (match selector outs (run (combine_dicts ds)) OutType.dct with
          | Except.ok r => Except.ok r
          | Except.error _ => Except.error
              (SDFail.dispatcherError (run (combine_dicts ds)))) = _
        rw [show selector outs (run (combine_dicts ds)) OutType.dct
          = (dictCompGo (run (combine_dicts ds)) [] outs).map PyRet.dict from rfl,
          dictCompGo_ok (run (combine_dicts ds)) outs [] hsome]
        rfl
      · intro h
        subst h
        show (match selector outs (run (combine_dicts ds)) OutType.values with
          | Except.ok r => Except.ok r
          | Except.error _ => Except.error
              (SDFail.dispatcherError (run (combine_dicts ds)))) = _
        rw [show selector outs (run (combine_dicts ds)) OutType.values
          = (lookups (run (combine_dicts ds)) outs).map bypassVals from rfl,
          lookups_ok (run (combine_dicts ds)) outs hsome]
        rfl

theorem C4_sub_dispatch_witness :
    (¬ OutType.lst = OutType.all)
    ∧ SubDispatch_call ⟨some [NId.str "x"], OutType.lst⟩ (fun d => d)
        [[(NId.str "x", Val.int 5)]]
      = Except.ok (PyRet.list [Val.int 5]) := by
  constructor
  · decide
  · have h := ((C4_sub_dispatch [NId.str "x"] OutType.lst (fun d => d)
      [[(NId.str "x", Val.int 5)]]).2 (by decide)).2 (by decide)
    exact h.1 rfl

/-- C5, counterexample to the claim as stated: both keyword checks are
guarded by Python truthiness of the found id, so a keyword argument
whose name is the empty string escapes them.  Here the empty string is
an unknown keyword (not a node of the frozen dispatcher), yet the call
proceeds to dispatch and returns instead of raising TypeError. -/
theorem C5_counterexample :
    ¬ (∀ (s : SDFState) (run : List (NId × Val) → List (NId × Val))
        (args : List Val) (kwargs : List (NId × Val)),
        (∃ k ∈ kwargs.map Prod.fst, ¬ k ∈ s.nodeIds) →
        ∃ m, SubDispatchFunction_call s run args kwargs
          = Except.error (SDFail.typeError m)) := by
  intro h
  obtain ⟨m, hm⟩ := h exSDF
    (fun _ => ([(NId.str "y", Val.int 7)] : List (NId × Val))) []
    [(NId.str "", Val.int 1)]
    ⟨NId.str "", by decide, by decide⟩
  rw [show SubDispatchFunction_call exSDF
      (fun _ => ([(NId.str "y", Val.int 7)] : List (NId × Val))) []
      [(NId.str "", Val.int 1)]
    = Except.ok (PyRet.list [Val.int 7]) from rfl] at hm
  exact Except.noConfusion hm

/-- C5: the claimed behaviour of SubDispatchFunction.__call__, valid
once every keyword name is a truthy (non-empty) string: a keyword that
repeats an id bound by a positional argument raises TypeError (multiple
values); otherwise a keyword that is not a node of the frozen dispatcher
raises TypeError (unexpected keyword); otherwise the call dispatches on
sol.inputs updated with the positional map and the keywords, and
returns through SubDispatch._return (outputs in declared order). -/
theorem C5_sdf_call (s : SDFState)
    (run : List (NId × Val) → List (NId × Val))
    (args : List Val) (kwargs : List (NId × Val))
    (htr : ∀ p ∈ kwargs, NId.py_truthy p.1 = true) :
    ((∃ p ∈ kwargs, PyAssoc.hasKey (map_list s.inputs args) p.1 = true) →
      ∃ m, SubDispatchFunction_call s run args kwargs
        = Except.error (SDFail.typeError m))
    ∧ ((∀ p ∈ kwargs, PyAssoc.hasKey (map_list s.inputs args) p.1 = false) →
      ((∃ k ∈ kwargs.map Prod.fst, ¬ k ∈ s.nodeIds) →
        ∃ m, SubDispatchFunction_call s run args kwargs
          = Except.error (SDFail.typeError m))
      ∧ ((∀ k ∈ kwargs.map Prod.fst, k ∈ s.nodeIds) →
        SubDispatchFunction_call s run args kwargs
          = SubDispatch_return ⟨s.outputs, s.output_type⟩
              (run (combine_dicts
                [s.solInputs, map_list s.inputs args, kwargs])))) := by
  constructor
  · intro hex
    have hfs : (kwargs.find?
        (fun p => PyAssoc.hasKey (map_list s.inputs args) p.1)).isSome := by
      rw [List.find?_isSome]
      obtain ⟨p, hp, hk⟩ := hex
      exact ⟨p, hp, hk⟩
    obtain ⟨q, hq⟩ := Option.isSome_iff_exists.mp hfs
    have hqt : NId.py_truthy q.1 = true :=
      htr q (List.mem_of_find?_eq_some hq)
    refine ⟨s.fname ++ "() got multiple values for argument " ++ q.1.key, ?he⟩
    unfold SubDispatchFunction_call
    rw [hq]
    show (if q.1.py_truthy then _ else _) = _
    rw [hqt]
    simp only [if_pos]
  · intro hnd
    have hf1 : kwargs.find?
        (fun p => PyAssoc.hasKey (map_list s.inputs args) p.1) = none := by
      rw [List.find?_eq_none]
      intro p hp
      simp [hnd p hp]
    constructor
    · intro hex
      have hfs : ((sortIds (kwargs.map Prod.fst)).find?
          (fun k => !(decide (k ∈ s.nodeIds)))).isSome := by
        rw [List.find?_isSome]
        obtain ⟨k, hk, hkn⟩ := hex
        exact ⟨k, (mem_sortIds k _).mpr hk, by simp [hkn]⟩
      obtain ⟨k0, hk0⟩ := Option.isSome_iff_exists.mp hfs
      have hk0m : k0 ∈ kwargs.map Prod.fst :=
        (mem_sortIds k0 _).mp (List.mem_of_find?_eq_some hk0)
      obtain ⟨p, hp, hpe⟩ := List.mem_map.mp hk0m
      have hk0t : NId.py_truthy k0 = true := by
        rw [← hpe]
        exact htr p hp
      refine ⟨s.fname ++ "() got an unexpected keyword argument " ++ k0.key, ?he2⟩
      unfold SubDispatchFunction_call
      rw [hf1]
      show SDF_unk s run (map_list s.inputs args) kwargs = _
      unfold SDF_unk
      rw [hk0]
      show (if k0.py_truthy then _ else _) = _
      rw [hk0t]
      simp only [if_pos]
    · intro hall
      have hf2 : (sortIds (kwargs.map Prod.fst)).find?
          (fun k => !(decide (k ∈ s.nodeIds))) = none := by
        rw [List.find?_eq_none]
        intro k hk
        simp [hall k ((mem_sortIds k _).mp hk)]
      unfold SubDispatchFunction_call
      rw [hf1]
      show SDF_unk s run (map_list s.inputs args) kwargs = _
      unfold SDF_unk
      rw [hf2]
      rfl

theorem C5_sdf_call_witness :
    (∀ p ∈ ([(NId.str "y", Val.int 2)] : List (NId × Val)),
        NId.py_truthy p.1 = true)
    ∧ SubDispatchFunction_call exSDF (fun d => d) [Val.int 1]
        [(NId.str "y", Val.int 2)]
      = Except.ok (PyRet.list [Val.int 2]) := by
  constructor
  · decide
  · have h := ((C5_sdf_call exSDF (fun d => d) [Val.int 1]
      [(NId.str "y", Val.int 2)] (by decide)).2 (by decide)).2 (by decide)
    exact h.trans rfl
